import Mathlib

/-! # Shallow embedding of the go-ethereum statediff builder

Definitions below translate statediff/builder.go of the arijitAD/go-ethereum
repository.  Byte strings and nibble paths are lists of naturals.  External
collaborators of the builder (the trie node store, the RLP codec, Keccak-256,
the contract-code store, the trie iterators and the order in which a Go map
range visits its entries) are bundled into a StateCache environment of
functions.  A trie iterator is modelled by the sequence of steps it yields;
the trie difference iterator, the node classifier CheckKeyType, the Params
record and the sortKeys/findIntersection helpers live outside builder.go and
are modelled from the specification, as marked on each such definition.
Every emitting function returns, next to its result, the list of records it
passed to the output sink, mirroring the push-style callbacks of the source.
Fallible Go code returning error is embedded with Except String; a Go nil
pointer dereference is embedded as an error value. -/

abbrev Bytes := List Nat

/-- One step yielded by a trie NodeIterator, carrying exactly the data the
builder loops read: it.Leaf(), it.Hash().Bytes() and it.Path(). -/
structure IterStep where
  isLeaf : Bool
  hash : Bytes
  path : Bytes
deriving DecidableEq

/-- Node type tags of statediff/types.  The Go type is a string; Unknown
stands for its zero value, which is produced by a lookup of a missing map
key and is no recognized variant. -/
inductive NodeType where
  | Branch
  | Extension
  | Leaf
  | Removed
  | Unknown
deriving DecidableEq

/-- state.Account restricted to the fields the builder reads. -/
structure Account where
  nonce : Nat := 0
  balance : Nat := 0
  root : Bytes := []
  codeHash : Bytes := []
deriving DecidableEq

/-- sdtypes.StorageNode. -/
structure StorageNode where
  nodeType : NodeType := NodeType.Unknown
  path : Bytes := []
  nodeValue : Bytes := []
  leafKey : Bytes := []
deriving DecidableEq

/-- sdtypes.StateNode. -/
structure StateNode where
  nodeType : NodeType := NodeType.Unknown
  path : Bytes := []
  nodeValue : Bytes := []
  leafKey : Bytes := []
  storageNodes : List StorageNode := []
deriving DecidableEq

/-- statediff.CodeAndCodeHash. -/
structure CodeAndCodeHash where
  hash : Bytes
  code : Bytes
deriving DecidableEq

/-- statediff.accountWrapper; the field defaults are the Go zero values
returned by a lookup of a missing map key. -/
structure accountWrapper where
  nodeType : NodeType := NodeType.Unknown
  path : Bytes := []
  nodeValue : Bytes := []
  leafKey : Bytes := []
  account : Option Account := none
deriving DecidableEq

/-- statediff.AccountMap, a Go map keyed by Bytes2Hex of the leaf key.  It
is embedded as an association list keyed by the raw bytes (the hex encoding
is injective, so the map behavior is identical); insertion keeps the list
keyed uniquely. -/
abbrev AccountMap := List (Bytes × accountWrapper)

/-- Go map assignment m[k] = v: replace the binding in place or append. -/
def amInsert (m : AccountMap) (k : Bytes) (v : accountWrapper) : AccountMap :=
  match m with
  | [] => [(k, v)]
  | kv :: rest => if kv.1 = k then (k, v) :: rest else kv :: amInsert rest k v

/-- Go map read m[k] without the zero-value default. -/
def amLookup (m : AccountMap) (k : Bytes) : Option accountWrapper :=
  match m with
  | [] => none
  | kv :: rest => if kv.1 = k then some kv.2 else amLookup rest k

/-- Go map read m[k]: a missing key yields the zero value. -/
def amLookupD (m : AccountMap) (k : Bytes) : accountWrapper :=
  (amLookup m k).getD {}

/-- Go delete(m, k): drop the binding of k. -/
def amDelete (m : AccountMap) (k : Bytes) : AccountMap :=
  match m with
  | [] => []
  | kv :: rest => if kv.1 = k then amDelete rest k else kv :: amDelete rest k

/-- Go map[string]bool used as a path set, keyed by Bytes2Hex of the nibble
path; embedded as a duplicate-free list of raw paths. -/
def pathInsert (ps : List Bytes) (p : Bytes) : List Bytes :=
  if ps.contains p then ps else ps ++ [p]

/-- builder.go line 37: the all-zeros 32-byte hash. -/
def nullHashBytes : Bytes := List.replicate 32 0

/-- builder.go line 38: rlp.EncodeToBytes of the empty byte string. -/
def emptyNode : Bytes := [128]

/-- External collaborators of the builder.  node is TrieDB().Node, keyed by
hash; contractCode is ContractCode, keyed by code hash (the context hash
argument of the Go call is always the zero hash and is dropped); openTrie
is OpenTrie composed with NodeIterator, returning the step sequence the
iterator yields; rlpDecodeList and rlpDecodeAccount embed rlp.DecodeBytes
at the two element types the builder uses; keccak embeds crypto.Keccak256;
mapRange gives the order in which a Go map range visits the entries of an
account map - Go leaves that order unspecified, so it is an arbitrary
function here, constrained to a permutation only in theorem hypotheses. -/
structure StateCache where
  node : Bytes → Except String Bytes
  contractCode : Bytes → Except String Bytes
  openTrie : Bytes → Except String (List IterStep)
  rlpDecodeList : Bytes → Except String (List Bytes)
  rlpDecodeAccount : Bytes → Except String Account
  keccak : Bytes → Bytes
  mapRange : AccountMap → AccountMap

/-- builder.go line 40: crypto.Keccak256Hash of the empty byte string. -/
def nullCodeHash (env : StateCache) : Bytes := env.keccak []

/-- builder.go line 39: crypto.Keccak256Hash of emptyNode. -/
def emptyContractRoot (env : StateCache) : Bytes := env.keccak emptyNode

/-- Go guarantee on map iteration: a range visits exactly the entries of the
map, in some order. -/
def mapRangeOk (env : StateCache) : Prop :=
  ∀ m : AccountMap, (env.mapRange m).Perm m

/-- trie keybytesToHex: one nibble per output byte, with the terminator 16
appended. -/
def keybytesToHex (str : Bytes) : Bytes :=
  (str.flatMap (fun b => [b / 16, b % 16])) ++ [16]

/-- trie.CompactToHex (hex-prefix decoding, spec section 4.1). -/
def compactToHex (compact : Bytes) : Bytes :=
  if compact = [] then compact
  else
    let base := keybytesToHex compact
    let base := if base.headD 0 < 2 then base.dropLast else base
    base.drop (2 - (base.headD 0) % 2)

/-- trie decodeNibbles: pack nibble pairs back into bytes. -/
def decodeNibbles : Bytes → Bytes
  | n1 :: n2 :: rest => (n1 * 16 + n2) :: decodeNibbles rest
  | _ => []

/-- trie hasTerm: the nibble string ends with the terminator 16. -/
def hasTerm (hex : Bytes) : Bool := hex.getLast? = some 16

/-- trie.HexToCompact (hex-prefix encoding, spec section 4.1). -/
def hexToCompact (hex : Bytes) : Bytes :=
  let t : Nat := if hasTerm hex then 1 else 0
  let hex := if hasTerm hex then hex.dropLast else hex
  if hex.length % 2 = 1 then
    (t * 32 + 16 + hex.headD 0) :: decodeNibbles (hex.drop 1)
  else
    (t * 32) :: decodeNibbles hex

/-- Leaf key computation of builder.go lines 125-128 (and its copies): the
compact re-encoding of the node path extended by the decoded leaf path
fragment, with the first byte stripped. -/
def leafKeyFrom (nodePath elem0 : Bytes) : Bytes :=
  (hexToCompact (nodePath ++ compactToHex elem0)).drop 1

/-- common.BytesToHash: right-align the bytes into a 32-byte hash. -/
def bytesToHash (b : Bytes) : Bytes :=
  let t := b.drop (b.length - 32)
  List.replicate (32 - t.length) 0 ++ t

/-- Lower-case hex digit of a value below 16. -/
def hexDigitChar (n : Nat) : Char :=
  if n < 10 then Char.ofNat (48 + n) else Char.ofNat (87 + n)

/-- common.Bytes2Hex, two hex digits per byte, used in error text. -/
def bytes2Hex (bs : Bytes) : String :=
  String.mk (bs.flatMap (fun b => [hexDigitChar (b / 16), hexDigitChar (b % 16)]))

/-- Modelled from the spec: statediff.CheckKeyType lives in the repository
helpers file that is not under src.  Spec section 4.1: a 17-element list is
a Branch; a 2-element list is classified by the high nibble of the first
byte of its first element, 0 or 1 giving Extension and 2 or 3 giving Leaf;
anything else is an error. -/
def checkKeyType (elements : List Bytes) : Except String NodeType :=
  if elements.length = 17 then Except.ok NodeType.Branch
  else if elements.length = 2 then
    match (elements.headD []).headD 0 / 16 with
    | 0 => Except.ok NodeType.Extension
    | 1 => Except.ok NodeType.Extension
    | 2 => Except.ok NodeType.Leaf
    | 3 => Except.ok NodeType.Leaf
    | _ => Except.error ("unknown hex prefix")
  else Except.error ("node cannot be less than two elements in length")

/-- Modelled from the spec: trie.NewDifferenceIterator lives in the trie
package, not under src.  Spec section 4.3: diff_iter(a, b) yields exactly
the nodes visited by b whose (path, hash) pair does not also appear at the
same path in a. -/
def diffIter (a b : List IterStep) : List IterStep :=
  b.filter (fun s => ! a.any (fun t => t.path == s.path && t.hash == s.hash))

/-- Node fetch and decode sequence shared by every builder loop
(builder.go lines 107-118 and its copies): TrieDB().Node at the step hash,
rlp.DecodeBytes into the element list, CheckKeyType; each error is
returned unchanged, as in the source. -/
def resolveNode (env : StateCache) (hash : Bytes) :
    Except String (Bytes × List Bytes × NodeType) :=
  match env.node hash with
  | Except.error e => Except.error e
  | Except.ok nodeBytes =>
    match env.rlpDecodeList nodeBytes with
    | Except.error e => Except.error e
    | Except.ok elements =>
      match checkKeyType elements with
      | Except.error e => Except.error e
      | Except.ok ty => Except.ok (nodeBytes, elements, ty)

/-- builder.go isWatchedAddress, lines 798-810. -/
def isWatchedAddress (env : StateCache) (watchedAddresses : List Bytes)
    (stateLeafKey : Bytes) : Bool :=
  if watchedAddresses.length = 0 then true
  else watchedAddresses.any (fun addr => env.keccak addr == stateLeafKey)

/-- builder.go isWatchedStorageKey, lines 813-824. -/
def isWatchedStorageKey (watchedKeys : List Bytes) (storageLeafKey : Bytes) : Bool :=
  if watchedKeys.length = 0 then true
  else watchedKeys.any (fun k => k == storageLeafKey)

/-- Removed storage record of builder.go lines 772-775 and 782-785: the
step path with an empty node value. -/
def removedStorageNode (p : Bytes) : StorageNode :=
  { nodeType := NodeType.Removed, path := p, nodeValue := [] }

/-- Removed state record of builder.go lines 446-449: the step path with an
empty node value. -/
def removedStateNode (p : Bytes) : StateNode :=
  { nodeType := NodeType.Removed, path := p, nodeValue := [] }

/-- sdtypes.StateNodeSink. -/
abbrev StateSink := StateNode → Except String Unit

/-- sdtypes.StorageNodeSink. -/
abbrev StorageSink := StorageNode → Except String Unit

/-- stateNodeAppender of builder.go lines 55-60: a sink that accepts every
record; the records it received are the emission log of the caller. -/
def okStateSink : StateSink := fun _ => Except.ok ()

/-- storageNodeAppender of builder.go lines 61-66. -/
def okStorageSink : StorageSink := fun _ => Except.ok ()

/-- One loop iteration of a builder pass: either continue with the records
emitted for this element and the updated loop state, or stop the walk with
an error after emitting some records (a failing sink still receives the
record it rejected). -/
inductive StepOut (sigma X : Type) where
  | cont (ems : List X) (st : sigma)
  | halt (ems : List X) (e : String)

/-- Go for-loop with early return, shared shape of every builder pass: run
the body on each element in order, concatenating the emitted records; a
halt aborts the walk and surfaces its error. -/
def runLoop {I sigma X : Type} (body : I → sigma → StepOut sigma X) :
    List I → sigma → List X × Except String sigma
  | [], st => ([], Except.ok st)
  | i :: rest, st =>
    match body i st with
    | StepOut.halt ems e => (ems, Except.error e)
    | StepOut.cont ems st' =>
      let res := runLoop body rest st'
      (ems ++ res.1, res.2)

/-- Emit one record to the sink, the builder.go pattern
`if err := output(n); err != nil return err`: the loop continues when the
sink accepts and halts with the sink error otherwise; either way the sink
received the record. -/
def emitOne {sigma X : Type} (sink : X → Except String Unit) (n : X) (st : sigma) :
    StepOut sigma X :=
  match sink n with
  | Except.error e => StepOut.halt [n] e
  | Except.ok _ => StepOut.cont [n] st

/-- Loop body of builder.go buildStorageNodesFromTrie, lines 592-643. -/
def buildStorageNodesFromTrieBody (env : StateCache) (sink : StorageSink)
    (watchedStorageKeys : List Bytes) (intermediateNodes : Bool)
    (s : IterStep) (st : Unit) : StepOut Unit StorageNode :=
  if s.isLeaf then StepOut.cont [] st
  else if s.hash = nullHashBytes then StepOut.cont [] st
  else
    match resolveNode env s.hash with
    | Except.error e => StepOut.halt [] e
    | Except.ok (nodeBytes, elements, ty) =>
      match ty with
      | NodeType.Leaf =>
        let leafKey := leafKeyFrom s.path (elements.headD [])
        if isWatchedStorageKey watchedStorageKeys leafKey then
          emitOne sink
            { nodeType := ty, path := s.path, nodeValue := nodeBytes, leafKey := leafKey } st
        else StepOut.cont [] st
      | NodeType.Extension | NodeType.Branch =>
        if intermediateNodes then
          emitOne sink { nodeType := ty, path := s.path, nodeValue := nodeBytes } st
        else StepOut.cont [] st
      | _ => StepOut.halt [] ("unexpected node type")

/-- builder.go buildStorageNodesFromTrie, lines 591-645, over the step
sequence of the given iterator. -/
def buildStorageNodesFromTrie (env : StateCache) (sink : StorageSink)
    (watchedStorageKeys : List Bytes) (intermediateNodes : Bool)
    (steps : List IterStep) : List StorageNode × Except String Unit :=
  runLoop (buildStorageNodesFromTrieBody env sink watchedStorageKeys intermediateNodes) steps ()

/-- builder.go buildStorageNodesEventual, lines 570-586. -/
def buildStorageNodesEventual (env : StateCache) (sink : StorageSink) (sr : Bytes)
    (watchedStorageKeys : List Bytes) (intermediateNodes : Bool) :
    List StorageNode × Except String Unit :=
  if sr = emptyContractRoot env then ([], Except.ok ())
  else
    match env.openTrie sr with
    | Except.error e => ([], Except.error e)
    | Except.ok steps =>
      buildStorageNodesFromTrie env sink watchedStorageKeys intermediateNodes steps

/-- Loop body of builder.go createdAndUpdatedStorage, lines 679-731; the
path of every processed node is added to the collected path set, also when
a leaf fails the watch filter or intermediate nodes are off. -/
def createdAndUpdatedStorageBody (env : StateCache) (sink : StorageSink)
    (watchedKeys : List Bytes) (intermediateNodes : Bool)
    (s : IterStep) (paths : List Bytes) : StepOut (List Bytes) StorageNode :=
  if s.isLeaf then StepOut.cont [] paths
  else if s.hash = nullHashBytes then StepOut.cont [] paths
  else
    match resolveNode env s.hash with
    | Except.error e => StepOut.halt [] e
    | Except.ok (nodeBytes, elements, ty) =>
      match ty with
      | NodeType.Leaf =>
        let leafKey := leafKeyFrom s.path (elements.headD [])
        if isWatchedStorageKey watchedKeys leafKey then
          emitOne sink
            { nodeType := ty, path := s.path, nodeValue := nodeBytes, leafKey := leafKey }
            (pathInsert paths s.path)
        else StepOut.cont [] (pathInsert paths s.path)
      | NodeType.Extension | NodeType.Branch =>
        if intermediateNodes then
          emitOne sink { nodeType := ty, path := s.path, nodeValue := nodeBytes }
            (pathInsert paths s.path)
        else StepOut.cont [] (pathInsert paths s.path)
      | _ => StepOut.halt [] ("unexpected node type")

/-- builder.go createdAndUpdatedStorage, lines 676-733. -/
def createdAndUpdatedStorage (env : StateCache) (sink : StorageSink)
    (a b : List IterStep) (watchedKeys : List Bytes) (intermediateNodes : Bool) :
    List StorageNode × Except String (List Bytes) :=
  runLoop (createdAndUpdatedStorageBody env sink watchedKeys intermediateNodes) (diffIter a b) []

/-- Loop body of builder.go deletedOrUpdatedStorage, lines 737-793: a step
whose path was collected by the creation pass is skipped outright; for the
others a Removed record is emitted for a leaf passing the watch filter and
for an intermediate node when intermediate nodes are requested. -/
def deletedOrUpdatedStorageBody (env : StateCache) (sink : StorageSink)
    (diffPathsAtB : List Bytes) (watchedKeys : List Bytes) (intermediateNodes : Bool)
    (s : IterStep) (st : Unit) : StepOut Unit StorageNode :=
  if s.isLeaf then StepOut.cont [] st
  else if s.hash = nullHashBytes then StepOut.cont [] st
  else if diffPathsAtB.contains s.path then StepOut.cont [] st
  else
    match resolveNode env s.hash with
    | Except.error e => StepOut.halt [] e
    | Except.ok (_, elements, ty) =>
      match ty with
      | NodeType.Leaf =>
        let leafKey := leafKeyFrom s.path (elements.headD [])
        if isWatchedStorageKey watchedKeys leafKey then
          emitOne sink (removedStorageNode s.path) st
        else StepOut.cont [] st
      | NodeType.Extension | NodeType.Branch =>
        if intermediateNodes then
          emitOne sink (removedStorageNode s.path) st
        else StepOut.cont [] st
      | _ => StepOut.halt [] ("unexpected node type")

/-- builder.go deletedOrUpdatedStorage, lines 735-795; the difference
iterator runs over (b, a), yielding the nodes of the old storage trie that
differ from the new one. -/
def deletedOrUpdatedStorage (env : StateCache) (sink : StorageSink)
    (a b : List IterStep) (diffPathsAtB : List Bytes) (watchedKeys : List Bytes)
    (intermediateNodes : Bool) : List StorageNode × Except String Unit :=
  runLoop (deletedOrUpdatedStorageBody env sink diffPathsAtB watchedKeys intermediateNodes)
    (diffIter b a) ()

/-- builder.go buildStorageNodesIncremental, lines 648-674. -/
def buildStorageNodesIncremental (env : StateCache) (sink : StorageSink)
    (oldSR newSR : Bytes) (watchedKeys : List Bytes) (intermediateNodes : Bool) :
    List StorageNode × Except String Unit :=
  if newSR = oldSR then ([], Except.ok ())
  else
    match env.openTrie oldSR with
    | Except.error e => ([], Except.error e)
    | Except.ok aSteps =>
      match env.openTrie newSR with
      | Except.error e => ([], Except.error e)
      | Except.ok bSteps =>
        let res1 := createdAndUpdatedStorage env sink aSteps bSteps watchedKeys intermediateNodes
        match res1.2 with
        | Except.error e => (res1.1, Except.error e)
        | Except.ok diffPathsAtB =>
          let res2 := deletedOrUpdatedStorage env sink aSteps bSteps diffPathsAtB
            watchedKeys intermediateNodes
          (res1.1 ++ res2.1, res2.2)

/-- Loop body of builder.go createdAndUpdatedState, lines 310-355: changed
leaves are recorded in the account map when they pass the address watch
filter; the path of every processed node is collected unconditionally;
nothing is emitted. -/
def createdAndUpdatedStateBody (env : StateCache) (watchedAddresses : List Bytes)
    (s : IterStep) (st : AccountMap × List Bytes) :
    StepOut (AccountMap × List Bytes) StateNode :=
  if s.isLeaf then StepOut.cont [] st
  else if s.hash = nullHashBytes then StepOut.cont [] st
  else
    match resolveNode env s.hash with
    | Except.error e => StepOut.halt [] e
    | Except.ok (nodeBytes, elements, ty) =>
      if ty = NodeType.Leaf then
        match env.rlpDecodeAccount (elements.getD 1 []) with
        | Except.error e =>
          StepOut.halt [] ("error decoding account for leaf node at path " ++
            bytes2Hex s.path ++ " nerror: " ++ e)
        | Except.ok account =>
          let leafKey := leafKeyFrom s.path (elements.headD [])
          let accs :=
            if isWatchedAddress env watchedAddresses leafKey then
              amInsert st.1 leafKey
                { nodeType := ty, path := s.path, nodeValue := nodeBytes,
                  leafKey := leafKey, account := some account }
            else st.1
          StepOut.cont [] (accs, pathInsert st.2 s.path)
      else StepOut.cont [] (st.1, pathInsert st.2 s.path)

/-- builder.go createdAndUpdatedState, lines 306-357. -/
def createdAndUpdatedState (env : StateCache) (a b : List IterStep)
    (watchedAddresses : List Bytes) : Except String (AccountMap × List Bytes) :=
  (runLoop (createdAndUpdatedStateBody env watchedAddresses) (diffIter a b) ([], [])).2

/-- Loop body of builder.go createdAndUpdatedStateWithIntermediateNodes,
lines 367-423: like the plain pass but without a watch filter, and changed
extension and branch nodes are emitted to the sink. -/
def createdAndUpdatedStateIntermediateBody (env : StateCache) (sink : StateSink)
    (s : IterStep) (st : AccountMap × List Bytes) :
    StepOut (AccountMap × List Bytes) StateNode :=
  if s.isLeaf then StepOut.cont [] st
  else if s.hash = nullHashBytes then StepOut.cont [] st
  else
    match resolveNode env s.hash with
    | Except.error e => StepOut.halt [] e
    | Except.ok (nodeBytes, elements, ty) =>
      match ty with
      | NodeType.Leaf =>
        match env.rlpDecodeAccount (elements.getD 1 []) with
        | Except.error e =>
          StepOut.halt [] ("error decoding account for leaf node at path " ++
            bytes2Hex s.path ++ " nerror: " ++ e)
        | Except.ok account =>
          let leafKey := leafKeyFrom s.path (elements.headD [])
          StepOut.cont []
            (amInsert st.1 leafKey
              { nodeType := ty, path := s.path, nodeValue := nodeBytes,
                leafKey := leafKey, account := some account },
             pathInsert st.2 s.path)
      | NodeType.Extension | NodeType.Branch =>
        emitOne sink { nodeType := ty, path := s.path, nodeValue := nodeBytes }
          (st.1, pathInsert st.2 s.path)
      | _ => StepOut.halt [] ("unexpected node type")

/-- builder.go createdAndUpdatedStateWithIntermediateNodes, lines 363-425. -/
def createdAndUpdatedStateWithIntermediateNodes (env : StateCache) (sink : StateSink)
    (a b : List IterStep) : List StateNode × Except String (AccountMap × List Bytes) :=
  runLoop (createdAndUpdatedStateIntermediateBody env sink) (diffIter a b) ([], [])

/-- Loop body of builder.go deletedOrUpdatedState, lines 432-489: for a
step whose path was not collected in pass one a Removed record is emitted
before the node is even fetched and classified; leaves are then recorded
in the A-side account map. -/
def deletedOrUpdatedStateBody (env : StateCache) (sink : StateSink)
    (diffPathsAtB : List Bytes) (s : IterStep) (accs : AccountMap) :
    StepOut AccountMap StateNode :=
  if s.isLeaf then StepOut.cont [] accs
  else if s.hash = nullHashBytes then StepOut.cont [] accs
  else
    let removedEms : List StateNode × Except String Unit :=
      if diffPathsAtB.contains s.path then ([], Except.ok ())
      else
        let n : StateNode := removedStateNode s.path
        match sink n with
        | Except.error e => ([n], Except.error e)
        | Except.ok _ => ([n], Except.ok ())
    match removedEms.2 with
    | Except.error e => StepOut.halt removedEms.1 e
    | Except.ok _ =>
      match resolveNode env s.hash with
      | Except.error e => StepOut.halt removedEms.1 e
      | Except.ok (nodeBytes, elements, ty) =>
        match ty with
        | NodeType.Leaf =>
          match env.rlpDecodeAccount (elements.getD 1 []) with
          | Except.error e =>
            StepOut.halt removedEms.1 ("error decoding account for leaf node at path " ++
              bytes2Hex s.path ++ " nerror: " ++ e)
          | Except.ok account =>
            let leafKey := leafKeyFrom s.path (elements.headD [])
            StepOut.cont removedEms.1
              (amInsert accs leafKey
                { nodeType := ty, path := s.path, nodeValue := nodeBytes,
                  leafKey := leafKey, account := some account })
        | NodeType.Extension | NodeType.Branch => StepOut.cont removedEms.1 accs
        | _ => StepOut.halt removedEms.1 ("unexpected node type")

/-- builder.go deletedOrUpdatedState, lines 429-491; the difference
iterator runs over (b, a), yielding the nodes of the old state trie that
differ from the new one. -/
def deletedOrUpdatedState (env : StateCache) (sink : StateSink)
    (a b : List IterStep) (diffPathsAtB : List Bytes) :
    List StateNode × Except String AccountMap :=
  runLoop (deletedOrUpdatedStateBody env sink diffPathsAtB) (diffIter b a) []

/-- Loop body of builder.go buildAccountUpdates, lines 500-525: the state
is the pair of the creations and deletions maps, both of which lose the
processed key; storage diffs are collected through storageNodeAppender,
the always-accepting storage sink. -/
def buildAccountUpdatesBody (env : StateCache) (sink : StateSink)
    (watchedStorageKeys : List Bytes) (intermediateStorageNodes : Bool)
    (key : Bytes) (st : AccountMap × AccountMap) :
    StepOut (AccountMap × AccountMap) StateNode :=
  let createdAcc := amLookupD st.1 key
  let deletedAcc := amLookupD st.2 key
  let storageRes : List StorageNode × Except String Unit :=
    match deletedAcc.account, createdAcc.account with
    | some dAcct, some cAcct =>
      buildStorageNodesIncremental env okStorageSink dAcct.root cAcct.root
        watchedStorageKeys intermediateStorageNodes
    | _, _ => ([], Except.ok ())
  match storageRes.2 with
  | Except.error e =>
    StepOut.halt [] ("failed building incremental storage diffs for account with leafkey " ++
      bytes2Hex key ++ "\r\nerror: " ++ e)
  | Except.ok _ =>
    emitOne sink
      { nodeType := createdAcc.nodeType, path := createdAcc.path,
        nodeValue := createdAcc.nodeValue, leafKey := createdAcc.leafKey,
        storageNodes := storageRes.1 }
      (amDelete st.1 key, amDelete st.2 key)

/-- builder.go buildAccountUpdates, lines 497-528; the Go function mutates
the two maps in place, so the updated maps are returned as the final loop
state. -/
def buildAccountUpdates (env : StateCache) (sink : StateSink)
    (watchedStorageKeys : List Bytes) (intermediateStorageNodes : Bool)
    (updatedKeys : List Bytes) (creations deletions : AccountMap) :
    List StateNode × Except String (AccountMap × AccountMap) :=
  runLoop (buildAccountUpdatesBody env sink watchedStorageKeys intermediateStorageNodes)
    updatedKeys (creations, deletions)

/-- Loop body of builder.go buildAccountCreations, lines 534-563: the state
is the code-and-codehash list built so far.  The Go code reads
val.Account.CodeHash through a pointer; a nil pointer is embedded as an
error (the Go program would panic).  Only an account whose code hash
differs from the empty-code hash gets its storage walked and its code
fetched and appended. -/
def buildAccountCreationsBody (env : StateCache) (sink : StateSink)
    (watchedStorageKeys : List Bytes) (intermediateStorageNodes : Bool)
    (kv : Bytes × accountWrapper) (codes : List CodeAndCodeHash) :
    StepOut (List CodeAndCodeHash) StateNode :=
  match kv.2.account with
  | none => StepOut.halt [] ("nil pointer dereference")
  | some acct =>
    if acct.codeHash ≠ nullCodeHash env then
      let storageRes := buildStorageNodesEventual env okStorageSink acct.root
        watchedStorageKeys intermediateStorageNodes
      match storageRes.2 with
      | Except.error e =>
        StepOut.halt [] ("failed building eventual storage diffs for node " ++
          bytes2Hex kv.2.path ++ "\r\nerror: " ++ e)
      | Except.ok _ =>
        let codeHash := bytesToHash acct.codeHash
        match env.contractCode codeHash with
        | Except.error e =>
          StepOut.halt [] ("failed to retrieve code for codehash " ++
            bytes2Hex codeHash ++ "\r\n error: " ++ e)
        | Except.ok code =>
          emitOne sink
            { nodeType := kv.2.nodeType, path := kv.2.path, leafKey := kv.2.leafKey,
              nodeValue := kv.2.nodeValue, storageNodes := storageRes.1 }
            (codes ++ [{ hash := codeHash, code := code }])
    else
      emitOne sink
        { nodeType := kv.2.nodeType, path := kv.2.path, leafKey := kv.2.leafKey,
          nodeValue := kv.2.nodeValue }
        codes

/-- builder.go buildAccountCreations, lines 532-566: a Go range over the
account map, in the order the runtime chooses. -/
def buildAccountCreations (env : StateCache) (sink : StateSink) (accounts : AccountMap)
    (watchedStorageKeys : List Bytes) (intermediateStorageNodes : Bool) :
    List StateNode × Except String (List CodeAndCodeHash) :=
  runLoop (buildAccountCreationsBody env sink watchedStorageKeys intermediateStorageNodes)
    (env.mapRange accounts) []

/-- Modelled from the spec: statediff sortKeys lives in the repository
helpers file that is not under src.  Spec section 4.4: keys are collected
and sorted ascending; the hex-string order sort.Strings uses coincides
with the lexicographic order on the raw byte lists, which is used here. -/
def sortKeys (m : AccountMap) : List Bytes :=
  List.insertionSort (fun x y : Bytes => x ≤ y) (m.map (fun kv => kv.1))

/-- Modelled from the spec: statediff findIntersection lives in the
repository helpers file that is not under src.  Spec section 4.4: updated
is the intersection of the two sorted key slices, kept in the order of the
first. -/
def findIntersection (a b : List Bytes) : List Bytes :=
  a.filter (fun x => b.contains x)

/-- Modelled from the spec: statediff.Params (configuration record outside
src), restricted to the options builder.go reads, spec section 4.4. -/
structure Params where
  intermediateStateNodes : Bool := false
  intermediateStorageNodes : Bool := false
  watchedAddresses : List Bytes := []
  watchedStorageSlots : List Bytes := []
deriving DecidableEq

/-- statediff.StateRoots, spec section 6. -/
structure StateRoots where
  oldStateRoot : Bytes
  newStateRoot : Bytes
deriving DecidableEq

/-- builder.go buildStateDiffWithIntermediateStateNodes, lines 194-247. -/
def buildStateDiffWithIntermediateStateNodes (env : StateCache) (sink : StateSink)
    (args : StateRoots) (params : Params) :
    List StateNode × Except String (List CodeAndCodeHash) :=
  match env.openTrie args.oldStateRoot with
  | Except.error e => ([], Except.error ("error creating trie for oldStateRoot: " ++ e))
  | Except.ok oldSteps =>
    match env.openTrie args.newStateRoot with
    | Except.error e => ([], Except.error ("error creating trie for newStateRoot: " ++ e))
    | Except.ok newSteps =>
      let res1 := createdAndUpdatedStateWithIntermediateNodes env sink oldSteps newSteps
      match res1.2 with
      | Except.error e => (res1.1, Except.error ("error collecting createdAndUpdatedNodes: " ++ e))
      | Except.ok (diffAccountsAtB, diffPathsAtB) =>
        let res2 := deletedOrUpdatedState env sink oldSteps newSteps diffPathsAtB
        match res2.2 with
        | Except.error e =>
          (res1.1 ++ res2.1, Except.error ("error collecting deletedOrUpdatedNodes: " ++ e))
        | Except.ok diffAccountsAtA =>
          let createKeys := sortKeys diffAccountsAtB
          let deleteKeys := sortKeys diffAccountsAtA
          let updatedKeys := findIntersection createKeys deleteKeys
          let res3 := buildAccountUpdates env sink params.watchedStorageSlots
            params.intermediateStorageNodes updatedKeys diffAccountsAtB diffAccountsAtA
          match res3.2 with
          | Except.error e =>
            (res1.1 ++ res2.1 ++ res3.1,
              Except.error ("error building diff for updated accounts: " ++ e))
          | Except.ok (creationsLeft, _) =>
            let res4 := buildAccountCreations env sink creationsLeft
              params.watchedStorageSlots params.intermediateStorageNodes
            match res4.2 with
            | Except.error e =>
              (res1.1 ++ res2.1 ++ res3.1 ++ res4.1,
                Except.error ("error building diff for created accounts: " ++ e))
            | Except.ok codes => (res1.1 ++ res2.1 ++ res3.1 ++ res4.1, Except.ok codes)

/-- builder.go buildStateDiffWithoutIntermediateStateNodes, lines 249-301. -/
def buildStateDiffWithoutIntermediateStateNodes (env : StateCache) (sink : StateSink)
    (args : StateRoots) (params : Params) :
    List StateNode × Except String (List CodeAndCodeHash) :=
  match env.openTrie args.oldStateRoot with
  | Except.error e => ([], Except.error ("error creating trie for oldStateRoot: " ++ e))
  | Except.ok oldSteps =>
    match env.openTrie args.newStateRoot with
    | Except.error e => ([], Except.error ("error creating trie for newStateRoot: " ++ e))
    | Except.ok newSteps =>
      match createdAndUpdatedState env oldSteps newSteps params.watchedAddresses with
      | Except.error e => ([], Except.error ("error collecting createdAndUpdatedNodes: " ++ e))
      | Except.ok (diffAccountsAtB, diffPathsAtB) =>
        let res2 := deletedOrUpdatedState env sink oldSteps newSteps diffPathsAtB
        match res2.2 with
        | Except.error e =>
          (res2.1, Except.error ("error collecting deletedOrUpdatedNodes: " ++ e))
        | Except.ok diffAccountsAtA =>
          let createKeys := sortKeys diffAccountsAtB
          let deleteKeys := sortKeys diffAccountsAtA
          let updatedKeys := findIntersection createKeys deleteKeys
          let res3 := buildAccountUpdates env sink params.watchedStorageSlots
            params.intermediateStorageNodes updatedKeys diffAccountsAtB diffAccountsAtA
          match res3.2 with
          | Except.error e =>
            (res2.1 ++ res3.1, Except.error ("error building diff for updated accounts: " ++ e))
          | Except.ok (creationsLeft, _) =>
            let res4 := buildAccountCreations env sink creationsLeft
              params.watchedStorageSlots params.intermediateStorageNodes
            match res4.2 with
            | Except.error e =>
              (res2.1 ++ res3.1 ++ res4.1,
                Except.error ("error building diff for created accounts: " ++ e))
            | Except.ok codes => (res2.1 ++ res3.1 ++ res4.1, Except.ok codes)

/-- builder.go WriteStateDiffObject, lines 185-192: the leaf-only code path
is taken when intermediate state nodes are off or the address watch list is
non-empty. -/
def WriteStateDiffObject (env : StateCache) (sink : StateSink) (args : StateRoots)
    (params : Params) : List StateNode × Except String (List CodeAndCodeHash) :=
  if !params.intermediateStateNodes || params.watchedAddresses.length > 0 then
    buildStateDiffWithoutIntermediateStateNodes env sink args params
  else
    buildStateDiffWithIntermediateStateNodes env sink args params

/-- statediff.Args, spec section 6. -/
structure Args where
  oldStateRoot : Bytes
  newStateRoot : Bytes
  blockNumber : Nat
  blockHash : Bytes
deriving DecidableEq

/-- statediff.StateObject; the defaults are the Go zero value returned next
to an error. -/
structure StateObject where
  blockNumber : Nat := 0
  blockHash : Bytes := []
  nodes : List StateNode := []
  codeAndCodeHashes : List CodeAndCodeHash := []
deriving DecidableEq

/-- StateObject zero value. -/
def emptyStateObject : StateObject := {}

/-- builder.go BuildStateDiffObject, lines 168-182: the Go multiple return
(StateObject, error) is embedded as a pair of the object and an optional
error. -/
def BuildStateDiffObject (env : StateCache) (args : Args) (params : Params) :
    StateObject × Option String :=
  let res := WriteStateDiffObject env okStateSink
    { oldStateRoot := args.oldStateRoot, newStateRoot := args.newStateRoot } params
  match res.2 with
  | Except.error e => (emptyStateObject, some e)
  | Except.ok codes =>
    ({ blockHash := args.blockHash, blockNumber := args.blockNumber,
       nodes := res.1, codeAndCodeHashes := codes }, none)

/-! ## Utility lemmas about the map and set embeddings -/

/-- Keys of an account map are pairwise distinct; the passes build their
maps through amInsert only, which preserves this. -/
def keysNodup (m : AccountMap) : Prop := (m.map Prod.fst).Nodup

/-! ## Emission behavior of the builder passes -/

/-- Records a loop iteration handed to the sink, whether it continued or
halted. -/
def StepOut.ems {sigma X : Type} : StepOut sigma X → List X
  | StepOut.cont ems _ => ems
  | StepOut.halt ems _ => ems

/-- The builder loops process a step exactly when it is not a value node
and its hash is not the all-zeros hash. -/
def relevantStep (s : IterStep) : Bool := !s.isLeaf && !(s.hash == nullHashBytes)

/-- Records one step of the state deletion pass hands to the sink: one
Removed record when the step is relevant and its path was not collected by
pass one. -/
def removedEmsFor (diffPathsAtB : List Bytes) (s : IterStep) : List StateNode :=
  if relevantStep s && !(diffPathsAtB.contains s.path) then [removedStateNode s.path] else []

/-- Records one step of the storage deletion pass hands to the sink: a
Removed record for a relevant step outside the collected path set, for a
leaf passing the watch filter or an intermediate node when intermediate
nodes are requested. -/
def storageRemovedEmsFor (env : StateCache) (diffPathsAtB : List Bytes)
    (watchedKeys : List Bytes) (intermediateNodes : Bool) (s : IterStep) : List StorageNode :=
  if relevantStep s = false then []
  else if diffPathsAtB.contains s.path then []
  else
    match resolveNode env s.hash with
    | Except.error _ => []
    | Except.ok (_, elements, ty) =>
      match ty with
      | NodeType.Leaf =>
        if isWatchedStorageKey watchedKeys (leafKeyFrom s.path (elements.headD [])) then
          [removedStorageNode s.path]
        else []
      | NodeType.Extension | NodeType.Branch =>
        if intermediateNodes then [removedStorageNode s.path] else []
      | _ => []

/-- Witness environment: a one-node old trie whose single node decodes as a
branch, and an empty new trie. -/
def envW1 : StateCache :=
  { node := fun h => if h = [10] then Except.ok [100] else Except.error ("missing node"),
    contractCode := fun _ => Except.error ("missing code"),
    openTrie := fun r =>
      if r = [1] then Except.ok [{ isLeaf := false, hash := [10], path := [0, 5] }]
      else if r = [2] then Except.ok []
      else Except.error ("missing root"),
    rlpDecodeList := fun n =>
      if n = [100] then Except.ok (List.replicate 17 []) else Except.error ("bad rlp"),
    rlpDecodeAccount := fun _ => Except.error ("bad account"),
    keccak := fun _ => [9],
    mapRange := fun m => m }

/-- Witness step: the changed old-trie node of envW1. -/
def stepW1 : IterStep := { isLeaf := false, hash := [10], path := [0, 5] }

/-- Witness environment: a one-leaf old storage trie and an empty new one;
the leaf decodes with a hex-prefix flagged first element. -/
def envW6 : StateCache :=
  { node := fun h => if h = [10] then Except.ok [100] else Except.error ("missing node"),
    contractCode := fun _ => Except.error ("missing code"),
    openTrie := fun _ => Except.error ("missing root"),
    rlpDecodeList := fun n =>
      if n = [100] then Except.ok [[32], [7]] else Except.error ("bad rlp"),
    rlpDecodeAccount := fun _ => Except.error ("bad account"),
    keccak := fun _ => [9],
    mapRange := fun m => m }

/-- Witness step: the vanished storage leaf of envW6. -/
def stepW6 : IterStep := { isLeaf := false, hash := [10], path := [3, 4] }

/-- Witness environment: an empty old trie and a one-leaf new trie whose
leaf key fails the watch filter. -/
def envW10 : StateCache :=
  { node := fun h => if h = [10] then Except.ok [100] else Except.error ("missing node"),
    contractCode := fun _ => Except.error ("missing code"),
    openTrie := fun _ => Except.error ("missing root"),
    rlpDecodeList := fun n =>
      if n = [100] then Except.ok [[32], [60]] else Except.error ("bad rlp"),
    rlpDecodeAccount := fun a =>
      if a = [60] then Except.ok { codeHash := [1] } else Except.error ("bad account"),
    keccak := fun _ => [1],
    mapRange := fun m => m }

/-- Witness step: the new-trie leaf of envW10, with leaf key [5], while the
watched address [2] hashes to [1]. -/
def stepW10 : IterStep := { isLeaf := false, hash := [10], path := [0, 5] }

/-! ## Claim C2: a non-empty address watch list restricts emissions -/

/-- Invariant of the pass-one account map under a watch list: every entry
is a Leaf record keyed by its own watched leaf key, carrying a decoded
account. -/
def watchedEntry (env : StateCache) (watched : List Bytes)
    (kv : Bytes × accountWrapper) : Prop :=
  kv.2.nodeType = NodeType.Leaf ∧ isWatchedAddress env watched kv.2.leafKey = true ∧
    kv.2.leafKey = kv.1 ∧ kv.2.account.isSome = true

/-- Witness environment: one watched address [4] hashing to [5], one new
leaf with leaf key [5], empty old trie. -/
def envW2 : StateCache :=
  { node := fun h => if h = [10] then Except.ok [100] else Except.error ("missing node"),
    contractCode := fun _ => Except.error ("missing code"),
    openTrie := fun r =>
      if r = [1] then Except.ok []
      else if r = [2] then Except.ok [{ isLeaf := false, hash := [10], path := [0, 5] }]
      else Except.error ("missing root"),
    rlpDecodeList := fun n =>
      if n = [100] then Except.ok [[32], [60]] else Except.error ("bad rlp"),
    rlpDecodeAccount := fun a =>
      if a = [60] then Except.ok { codeHash := [0] } else Except.error ("bad account"),
    keccak := fun a => if a = [4] then [5] else [0],
    mapRange := fun m => m }

/-- Witness parameters: watch list [[4]] with intermediate state nodes
requested. -/
def paramsW2 : Params :=
  { intermediateStateNodes := true, watchedAddresses := [[4]] }

/-- Witness environment: every root lookup fails. -/
def envW8 : StateCache :=
  { node := fun _ => Except.error ("missing node"),
    contractCode := fun _ => Except.error ("missing code"),
    openTrie := fun _ => Except.error ("missing root"),
    rlpDecodeList := fun _ => Except.error ("bad rlp"),
    rlpDecodeAccount := fun _ => Except.error ("bad account"),
    keccak := fun _ => [0],
    mapRange := fun m => m }

/-- Witness steps: the old-trie leaf of the updated account. -/
def stepO9 : IterStep := { isLeaf := false, hash := [20], path := [0, 5] }

/-- Witness steps: the new-trie leaf of the updated account. -/
def stepA9 : IterStep := { isLeaf := false, hash := [10], path := [0, 5] }

/-- Witness steps: the new-trie leaf of the created account. -/
def stepB9 : IterStep := { isLeaf := false, hash := [11], path := [1, 7] }

/-- Witness environment: one account updated (leaf key [5]) and one created
(leaf key [23]); all code hashes equal the empty-code hash [9]. -/
def envW9 : StateCache :=
  { node := fun h =>
      if h = [10] then Except.ok [100]
      else if h = [11] then Except.ok [101]
      else if h = [20] then Except.ok [110]
      else Except.error ("missing node"),
    contractCode := fun _ => Except.error ("missing code"),
    openTrie := fun r =>
      if r = [1] then Except.ok [stepO9]
      else if r = [2] then Except.ok [stepA9, stepB9]
      else Except.error ("missing root"),
    rlpDecodeList := fun n =>
      if n = [100] then Except.ok [[32], [60]]
      else if n = [101] then Except.ok [[32], [61]]
      else if n = [110] then Except.ok [[32], [62]]
      else Except.error ("bad rlp"),
    rlpDecodeAccount := fun a =>
      if a = [60] then Except.ok { codeHash := [9] }
      else if a = [61] then Except.ok { codeHash := [9] }
      else if a = [62] then Except.ok { codeHash := [9], balance := 5 }
      else Except.error ("bad account"),
    keccak := fun _ => [9],
    mapRange := fun m => m }

/-- Witness entry: the updated account at B. -/
def accW5 : accountWrapper :=
  { nodeType := NodeType.Leaf, path := [0, 5], nodeValue := [100], leafKey := [5],
    account := some { codeHash := [9] } }

/-- Witness entry: the created account at B. -/
def accW23 : accountWrapper :=
  { nodeType := NodeType.Leaf, path := [1, 7], nodeValue := [101], leafKey := [23],
    account := some { codeHash := [9] } }

/-- Witness entry: the updated account at A. -/
def accW5A : accountWrapper :=
  { nodeType := NodeType.Leaf, path := [0, 5], nodeValue := [110], leafKey := [5],
    account := some { codeHash := [9], balance := 5 } }

/-! ## Claims C3 and C4: the creations pass -/

/-- Records one creations-pass step hands to the sink, determined by the
entry alone: the Leaf, with the eventual storage walk attached exactly
when the account code hash differs from the empty-code hash. -/
def creationEmsFor (env : StateCache) (wsk : List Bytes) (isn : Bool)
    (kv : Bytes × accountWrapper) : List StateNode :=
  match kv.2.account with
  | none => []
  | some acct =>
    if acct.codeHash ≠ nullCodeHash env then
      match (buildStorageNodesEventual env okStorageSink acct.root wsk isn).2 with
      | Except.error _ => []
      | Except.ok _ =>
        match env.contractCode (bytesToHash acct.codeHash) with
        | Except.error _ => []
        | Except.ok _ =>
          [{ nodeType := kv.2.nodeType, path := kv.2.path, leafKey := kv.2.leafKey,
             nodeValue := kv.2.nodeValue,
             storageNodes := (buildStorageNodesEventual env okStorageSink acct.root wsk isn).1 }]
    else
      [{ nodeType := kv.2.nodeType, path := kv.2.path, leafKey := kv.2.leafKey,
         nodeValue := kv.2.nodeValue }]

/-- Code pair one creations-pass step appends: only an account whose code
hash differs from the empty-code hash contributes one. -/
def creationCodeFor (env : StateCache) (kv : Bytes × accountWrapper) :
    List CodeAndCodeHash :=
  match kv.2.account with
  | none => []
  | some acct =>
    if acct.codeHash ≠ nullCodeHash env then
      match env.contractCode (bytesToHash acct.codeHash) with
      | Except.error _ => []
      | Except.ok code => [{ hash := bytesToHash acct.codeHash, code := code }]
    else []

/-- Counterexample environment for the creations-pass storage claim: the
created account carries the empty code hash [9] but a storage root [7]
whose trie holds one branch node. -/
def envX4 : StateCache :=
  { node := fun h =>
      if h = [30] then Except.ok [200] else Except.error ("missing node"),
    contractCode := fun h =>
      if h = bytesToHash [8] then Except.ok [77] else Except.error ("missing code"),
    openTrie := fun r =>
      if r = [7] then Except.ok [{ isLeaf := false, hash := [30], path := [] }]
      else Except.error ("missing root"),
    rlpDecodeList := fun n =>
      if n = [200] then Except.ok (List.replicate 17 []) else Except.error ("bad rlp"),
    rlpDecodeAccount := fun _ => Except.error ("bad account"),
    keccak := fun _ => [9],
    mapRange := fun m => m }

/-- Counterexample entry: account with the empty code hash and non-empty
storage. -/
def accX4 : accountWrapper :=
  { nodeType := NodeType.Leaf, path := [0, 5], nodeValue := [100], leafKey := [5],
    account := some { codeHash := [9], root := [7] } }

/-- Witness entry: contract account with code hash [8] and empty storage. -/
def accX4b : accountWrapper :=
  { nodeType := NodeType.Leaf, path := [1, 7], nodeValue := [101], leafKey := [6],
    account := some { codeHash := [8], root := [9] } }

/-- Counterexample environment for the pass-three sort claim: two accounts
created at B, with the map range visiting the entries in reverse, a
permutation Go is free to choose. -/
def envX3 : StateCache :=
  { node := fun h =>
      if h = [10] then Except.ok [100]
      else if h = [11] then Except.ok [101]
      else Except.error ("missing node"),
    contractCode := fun _ => Except.error ("missing code"),
    openTrie := fun r =>
      if r = [1] then Except.ok []
      else if r = [2] then Except.ok [stepA9, stepB9]
      else Except.error ("missing root"),
    rlpDecodeList := fun n =>
      if n = [100] then Except.ok [[32], [60]]
      else if n = [101] then Except.ok [[32], [61]]
      else Except.error ("bad rlp"),
    rlpDecodeAccount := fun a =>
      if a = [60] then Except.ok { codeHash := [9] }
      else if a = [61] then Except.ok { codeHash := [9] }
      else Except.error ("bad account"),
    keccak := fun _ => [9],
    mapRange := List.reverse }

/-- The four context prefixes the two buildStateDiff variants prepend to an
error of a later pass (builder.go lines 258, 264, 281, 292 and 372, 378,
395, 406). -/
def wrapCtxs : List String :=
  ["error collecting createdAndUpdatedNodes: ",
   "error collecting deletedOrUpdatedNodes: ",
   "error building diff for updated accounts: ",
   "error building diff for created accounts: "]

/-- Counterexample environment: the old trie holds one changed node, the
new trie is empty, so pass two hands a Removed record to the sink. -/
def envX7 : StateCache :=
  { envW9 with
    openTrie := fun r =>
      if r = [1] then Except.ok [stepO9]
      else if r = [2] then Except.ok []
      else Except.error ("missing root") }

/-- Witness environment for the amended sink-abort property: the old trie
holds two changed nodes (paths [0, 5] and [1, 7]), the new trie is empty,
so pass two hands two Removed records to the sink in sequence. -/
def envW7 : StateCache :=
  { envW9 with
    openTrie := fun r =>
      if r = [1] then Except.ok [stepO9, stepB9]
      else if r = [2] then Except.ok []
      else Except.error ("missing root") }

/-- Witness sink: accepts every record except the one at path [1, 7], for
which it fails with "boom"; the run therefore accepts its first record and
fails mid-stream on the second. -/
def sinkW7 : StateSink :=
  fun m => if m.path = [1, 7] then Except.error ("boom") else Except.ok ()

lemma amLookup_mem {m : AccountMap} {k : Bytes} {v : accountWrapper}
    (h : amLookup m k = some v) : (k, v) ∈ m := by
  induction m with
  | nil => simp [amLookup] at h
  | cons kv rest ih =>
    obtain ⟨k0, v0⟩ := kv
    by_cases hk : k0 = k
    · subst hk
      simp only [amLookup, if_pos, Option.some.injEq] at h
      subst h
      exact List.mem_cons_self _ _
    · simp only [amLookup, hk, if_neg, not_false_iff] at h
      exact List.mem_cons_of_mem _ (ih h)

lemma mem_amInsert {m : AccountMap} {k : Bytes} {v : accountWrapper} {kv : Bytes × accountWrapper}
    (h : kv ∈ amInsert m k v) : kv = (k, v) ∨ kv ∈ m := by
  induction m with
  | nil => simp [amInsert] at h; left; exact h
  | cons kv0 rest ih =>
    by_cases hk : kv0.1 = k
    · simp only [amInsert, hk, if_pos] at h
      rcases List.mem_cons.mp h with h1 | h2
      · left; exact h1
      · right; exact List.mem_cons_of_mem _ h2
    · simp only [amInsert, hk, if_neg, not_false_iff] at h
      rcases List.mem_cons.mp h with h1 | h2
      · right; exact h1 ▸ List.mem_cons_self _ _
      · rcases ih h2 with h3 | h4
        · left; exact h3
        · right; exact List.mem_cons_of_mem _ h4

lemma amInsert_keys (m : AccountMap) (k : Bytes) (v : accountWrapper) :
    (amInsert m k v).map Prod.fst =
      if k ∈ m.map Prod.fst then m.map Prod.fst else m.map Prod.fst ++ [k] := by
  induction m with
  | nil => simp [amInsert]
  | cons kv0 rest ih =>
    by_cases hk : kv0.1 = k
    · simp [amInsert, hk]
    · simp only [amInsert, hk, if_neg, not_false_iff, List.map_cons, ih]
      have hne : (k ∈ kv0.1 :: rest.map Prod.fst) ↔ (k ∈ rest.map Prod.fst) := by
        constructor
        · intro h
          rcases List.mem_cons.mp h with h1 | h2
          · exact absurd h1.symm hk
          · exact h2
        · exact fun h => List.mem_cons_of_mem _ h
      by_cases hm : k ∈ rest.map Prod.fst
      · simp [hm, hne]
      · simp [hm, hne]

lemma keysNodup_amInsert {m : AccountMap} (k : Bytes) (v : accountWrapper)
    (h : keysNodup m) : keysNodup (amInsert m k v) := by
  unfold keysNodup at h ⊢
  rw [amInsert_keys]
  by_cases hm : k ∈ m.map Prod.fst
  · rw [if_pos hm]; exact h
  · rw [if_neg hm, List.nodup_append]
    refine ⟨h, List.nodup_singleton _, ?_⟩
    intro a ha hb
    simp only [List.mem_singleton] at hb
    exact hm (hb ▸ ha)

lemma amDelete_sublist (m : AccountMap) (k : Bytes) : (amDelete m k).Sublist m := by
  induction m with
  | nil => simp [amDelete]
  | cons kv0 rest ih =>
    by_cases hk : kv0.1 = k
    · simpa [amDelete, hk] using ih.cons kv0
    · simpa [amDelete, hk] using ih.cons₂ kv0

lemma mem_amDelete {m : AccountMap} {k : Bytes} {kv : Bytes × accountWrapper} :
    kv ∈ amDelete m k ↔ kv ∈ m ∧ kv.1 ≠ k := by
  induction m with
  | nil => simp [amDelete]
  | cons kv0 rest ih =>
    by_cases hk : kv0.1 = k
    · simp only [amDelete, hk, if_pos, ih, List.mem_cons]
      constructor
      · exact fun h => ⟨Or.inr h.1, h.2⟩
      · rintro ⟨h1 | h2, hne⟩
        · exact absurd (h1 ▸ hk) hne
        · exact ⟨h2, hne⟩
    · simp only [amDelete, hk, if_neg, not_false_iff, List.mem_cons, ih]
      constructor
      · rintro (h1 | h2)
        · exact ⟨Or.inl h1, h1 ▸ hk⟩
        · exact ⟨Or.inr h2.1, h2.2⟩
      · rintro ⟨h1 | h2, hne⟩
        · exact Or.inl h1
        · exact Or.inr ⟨h2, hne⟩

lemma keysNodup_amDelete {m : AccountMap} (k : Bytes) (h : keysNodup m) :
    keysNodup (amDelete m k) :=
  h.sublist ((amDelete_sublist m k).map Prod.fst)

lemma amLookup_of_mem {m : AccountMap} {kv : Bytes × accountWrapper}
    (hm : kv ∈ m) (hnd : keysNodup m) : amLookup m kv.1 = some kv.2 := by
  induction m with
  | nil => simp at hm
  | cons kv0 rest ih =>
    unfold keysNodup at hnd
    simp only [List.map_cons, List.nodup_cons] at hnd
    rcases List.mem_cons.mp hm with h1 | h2
    · subst h1; simp [amLookup]
    · have hne : kv0.1 ≠ kv.1 := by
        intro he
        exact hnd.1 (he ▸ List.mem_map_of_mem Prod.fst h2)
      simp only [amLookup, hne, if_neg, not_false_iff]
      exact ih h2 hnd.2

lemma amLookup_amDelete_self (m : AccountMap) (k : Bytes) :
    amLookup (amDelete m k) k = none := by
  induction m with
  | nil => rfl
  | cons kv0 rest ih =>
    by_cases hk : kv0.1 = k
    · simpa [amDelete, hk] using ih
    · simpa [amDelete, amLookup, hk] using ih

lemma amLookup_amDelete_ne (m : AccountMap) {k k' : Bytes} (h : k' ≠ k) :
    amLookup (amDelete m k) k' = amLookup m k' := by
  induction m with
  | nil => rfl
  | cons kv0 rest ih =>
    by_cases hk : kv0.1 = k
    · have h0 : ¬ kv0.1 = k' := by rw [hk]; exact fun he => h he.symm
      simp only [amDelete, hk, if_pos]
      rw [ih]
      simp [amLookup, h0]
    · by_cases hk' : kv0.1 = k'
      · simp [amDelete, amLookup, hk, hk', h]
      · simp [amDelete, amLookup, hk, hk', ih]

lemma mem_pathInsert {ps : List Bytes} {p q : Bytes} :
    q ∈ pathInsert ps p ↔ q ∈ ps ∨ q = p := by
  unfold pathInsert
  by_cases hc : ps.contains p
  · have hp : p ∈ ps := by simpa using hc
    simp only [hc, if_pos]
    constructor
    · exact fun h => Or.inl h
    · rintro (h | h)
      · exact h
      · exact h ▸ hp
  · have hp : p ∉ ps := by simpa using hc
    rw [if_neg (by simpa using hc)]
    simp [List.mem_append]

lemma self_mem_pathInsert (ps : List Bytes) (p : Bytes) : p ∈ pathInsert ps p :=
  mem_pathInsert.mpr (Or.inr rfl)

lemma mem_pathInsert_of_mem {ps : List Bytes} {q : Bytes} (p : Bytes) (h : q ∈ ps) :
    q ∈ pathInsert ps p := mem_pathInsert.mpr (Or.inl h)

/-- The difference iterator of a trie with itself yields nothing: every step
of the second walk has an identical (path, hash) pair in the first. -/
lemma diffIter_self (t : List IterStep) : diffIter t t = [] := by
  rw [diffIter, List.filter_eq_nil_iff]
  intro s hs
  simp only [Bool.not_eq_true', Bool.not_eq_false]
  exact List.any_eq_true.mpr ⟨s, hs, by simp⟩

lemma sortKeys_mem {m : AccountMap} {k : Bytes} :
    k ∈ sortKeys m ↔ k ∈ m.map Prod.fst := by
  unfold sortKeys
  exact (List.perm_insertionSort _ _).mem_iff

lemma sortKeys_nodup {m : AccountMap} (h : keysNodup m) : (sortKeys m).Nodup :=
  (List.perm_insertionSort _ _).nodup_iff.mpr h

lemma sortKeys_sorted (m : AccountMap) :
    List.Sorted (fun x y : Bytes => x ≤ y) (sortKeys m) :=
  List.sorted_insertionSort _ _

lemma findIntersection_mem {a b : List Bytes} {k : Bytes} :
    k ∈ findIntersection a b ↔ k ∈ a ∧ k ∈ b := by
  simp [findIntersection, List.mem_filter]

lemma findIntersection_nodup {a b : List Bytes} (h : a.Nodup) :
    (findIntersection a b).Nodup := h.sublist (List.filter_sublist a)

lemma findIntersection_sorted {a : List Bytes} (b : List Bytes)
    (h : List.Sorted (fun x y : Bytes => x ≤ y) a) :
    List.Sorted (fun x y : Bytes => x ≤ y) (findIntersection a b) :=
  h.sublist (List.filter_sublist a)

/-! ## Generic lemmas about the loop runner -/

lemma runLoop_ok_emitted {I sigma X : Type} (body : I → sigma → StepOut sigma X)
    (f : I → List X)
    (hbody : ∀ i st ems st', body i st = StepOut.cont ems st' → ems = f i) :
    ∀ (l : List I) (st : sigma), (runLoop body l st).2.isOk = true →
      (runLoop body l st).1 = l.flatMap f := by
  intro l
  induction l with
  | nil => intro st _; rfl
  | cons i rest ih =>
    intro st hok
    simp only [runLoop] at hok ⊢
    cases hb : body i st with
    | halt ems e => simp [hb, Except.isOk, Except.toBool] at hok
    | cont ems st' =>
      simp only [hb] at hok ⊢
      rw [List.flatMap_cons, hbody i st ems st' hb, ih st' hok]

lemma runLoop_emitted_from {I sigma X : Type} (body : I → sigma → StepOut sigma X)
    (P : I → X → Prop)
    (hc : ∀ i st ems st', body i st = StepOut.cont ems st' → ∀ x ∈ ems, P i x)
    (hh : ∀ i st ems e, body i st = StepOut.halt ems e → ∀ x ∈ ems, P i x) :
    ∀ (l : List I) (st : sigma) (x : X), x ∈ (runLoop body l st).1 → ∃ i ∈ l, P i x := by
  intro l
  induction l with
  | nil => intro st x hx; simp [runLoop] at hx
  | cons i rest ih =>
    intro st x hx
    simp only [runLoop] at hx
    cases hb : body i st with
    | halt ems e =>
      rw [hb] at hx
      exact ⟨i, List.mem_cons_self _ _, hh i st ems e hb x hx⟩
    | cont ems st' =>
      rw [hb] at hx
      simp only [List.mem_append] at hx
      rcases hx with hx | hx
      · exact ⟨i, List.mem_cons_self _ _, hc i st ems st' hb x hx⟩
      · obtain ⟨j, hj, hP⟩ := ih st' x hx
        exact ⟨j, List.mem_cons_of_mem _ hj, hP⟩

lemma runLoop_ok_state {I sigma X : Type} (body : I → sigma → StepOut sigma X)
    (Q : sigma → Prop)
    (hstep : ∀ i st ems st', body i st = StepOut.cont ems st' → Q st → Q st') :
    ∀ (l : List I) (st : sigma) (st' : sigma),
      (runLoop body l st).2 = Except.ok st' → Q st → Q st' := by
  intro l
  induction l with
  | nil =>
    intro st st' hok hQ
    simp only [runLoop, Except.ok.injEq] at hok
    exact hok ▸ hQ
  | cons i rest ih =>
    intro st st' hok hQ
    simp only [runLoop] at hok
    cases hb : body i st with
    | halt ems e => rw [hb] at hok; simp at hok
    | cont ems st2 =>
      rw [hb] at hok
      exact ih st2 st' hok (hstep i st ems st2 hb hQ)

lemma runLoop_ok_state_mem {I sigma X : Type} (body : I → sigma → StepOut sigma X)
    (R : I → sigma → Prop)
    (hkeep : ∀ i j st ems st', body j st = StepOut.cont ems st' → R i st → R i st')
    (hself : ∀ i st ems st', body i st = StepOut.cont ems st' → R i st') :
    ∀ (l : List I) (st : sigma) (st' : sigma),
      (runLoop body l st).2 = Except.ok st' → ∀ i ∈ l, R i st' := by
  intro l
  induction l with
  | nil => intro st st' _ i hi; simp at hi
  | cons j rest ih =>
    intro st st' hok i hi
    simp only [runLoop] at hok
    cases hb : body j st with
    | halt ems e => rw [hb] at hok; simp at hok
    | cont ems st2 =>
      rw [hb] at hok
      rcases List.mem_cons.mp hi with h1 | h2
      · subst h1
        exact runLoop_ok_state body (R i) (fun a stA ems' st'' hbd => hkeep i a stA ems' st'' hbd)
          rest st2 st' hok (hself i st ems st2 hb)
      · exact ih st2 st' hok i h2

lemma runLoop_halt_single {I sigma X : Type} (body : I → sigma → StepOut sigma X)
    (e : String)
    (hbody : ∀ i st, (∃ st', body i st = StepOut.cont [] st') ∨
      (∃ ems e', body i st = StepOut.halt ems e' ∧
        (ems = [] ∨ (∃ x, ems = [x] ∧ e' = e)))) :
    ∀ (l : List I) (st : sigma), (runLoop body l st).1.length ≤ 1 ∧
      ((runLoop body l st).1 ≠ [] → (runLoop body l st).2 = Except.error e) := by
  intro l
  induction l with
  | nil => intro st; exact ⟨by simp [runLoop], fun h => absurd rfl h⟩
  | cons i rest ih =>
    intro st
    simp only [runLoop]
    rcases hbody i st with ⟨st', hb⟩ | ⟨ems, e', hb, hcase⟩
    · simp only [hb]
      simpa using ih st'
    · simp only [hb]
      rcases hcase with h0 | ⟨x, hx, he⟩
      · subst h0
        exact ⟨by simp, fun h => absurd rfl h⟩
      · subst hx; subst he
        exact ⟨by simp, fun _ => rfl⟩

lemma emitOne_ems {sigma X : Type} (sink : X → Except String Unit) (n : X) (st : sigma) :
    (emitOne sink n st).ems = [n] := by
  unfold emitOne
  cases sink n <;> rfl

lemma emitOne_cont {sigma X : Type} {sink : X → Except String Unit} {n : X} {st st' : sigma}
    {ems : List X} (h : emitOne sink n st = StepOut.cont ems st') :
    ems = [n] ∧ st' = st := by
  unfold emitOne at h
  cases hs : sink n with
  | error e => simp only [hs] at h; simp at h
  | ok u => simp only [hs] at h; cases h; exact ⟨rfl, rfl⟩

lemma mem_removedEmsFor {pB : List Bytes} {s : IterStep} {x : StateNode}
    (h : x ∈ removedEmsFor pB s) :
    x = removedStateNode s.path ∧ relevantStep s = true ∧ pB.contains s.path = false := by
  unfold removedEmsFor at h
  by_cases hc : (relevantStep s && !(pB.contains s.path)) = true
  · rw [if_pos hc] at h
    simp only [List.mem_singleton] at h
    have hc' : relevantStep s = true ∧ pB.contains s.path = false := by
      simpa using hc
    exact ⟨h, hc'.1, hc'.2⟩
  · rw [if_neg hc] at h
    simp at h

lemma deletedOrUpdatedStateBody_ems (env : StateCache) (sink : StateSink)
    (pB : List Bytes) (s : IterStep) (st : AccountMap) :
    (deletedOrUpdatedStateBody env sink pB s st).ems = removedEmsFor pB s := by
  unfold deletedOrUpdatedStateBody removedEmsFor relevantStep
  by_cases hL : s.isLeaf = true
  · simp [hL, StepOut.ems]
  · by_cases hH : s.hash = nullHashBytes
    · simp [hL, hH, StepOut.ems]
    · by_cases hp : pB.contains s.path = true
      · simp only [hL, hH, hp, if_neg, if_pos, Bool.false_eq_true, not_false_iff,
          Bool.not_true, Bool.and_false, beq_iff_eq]
        cases hres : resolveNode env s.hash with
        | error e => simp [hres, StepOut.ems, hL, hH, hp]
        | ok trip =>
          obtain ⟨nb, elems, ty⟩ := trip
          cases ty with
          | Leaf =>
            cases hacc : env.rlpDecodeAccount ((elems[1]?).getD []) with
            | error e => simp [hres, hacc, StepOut.ems, hL, hH, hp]
            | ok account => simp [hres, hacc, StepOut.ems, hL, hH, hp]
          | Extension => simp [hres, StepOut.ems, hL, hH, hp]
          | Branch => simp [hres, StepOut.ems, hL, hH, hp]
          | Removed => simp [hres, StepOut.ems, hL, hH, hp]
          | Unknown => simp [hres, StepOut.ems, hL, hH, hp]
      · have hp' : s.path ∉ pB := by simpa using hp
        cases hsk : sink (removedStateNode s.path) with
        | error e => simp [hL, hH, hp, hp', hsk, StepOut.ems]
        | ok u =>
          cases hres : resolveNode env s.hash with
          | error e => simp [hres, hsk, StepOut.ems, hL, hH, hp, hp']
          | ok trip =>
            obtain ⟨nb, elems, ty⟩ := trip
            cases ty with
            | Leaf =>
              cases hacc : env.rlpDecodeAccount ((elems[1]?).getD []) with
              | error e => simp [hres, hacc, hsk, StepOut.ems, hL, hH, hp, hp']
              | ok account => simp [hres, hacc, hsk, StepOut.ems, hL, hH, hp, hp']
            | Extension => simp [hres, hsk, StepOut.ems, hL, hH, hp, hp']
            | Branch => simp [hres, hsk, StepOut.ems, hL, hH, hp, hp']
            | Removed => simp [hres, hsk, StepOut.ems, hL, hH, hp, hp']
            | Unknown => simp [hres, hsk, StepOut.ems, hL, hH, hp, hp']

lemma deletedOrUpdatedStorageBody_ems (env : StateCache) (sink : StorageSink)
    (pB : List Bytes) (watchedKeys : List Bytes) (intermediateNodes : Bool)
    (s : IterStep) (st : Unit) :
    (deletedOrUpdatedStorageBody env sink pB watchedKeys intermediateNodes s st).ems =
      storageRemovedEmsFor env pB watchedKeys intermediateNodes s := by
  unfold deletedOrUpdatedStorageBody storageRemovedEmsFor relevantStep
  by_cases hL : s.isLeaf = true
  · simp [hL, StepOut.ems]
  · by_cases hH : s.hash = nullHashBytes
    · simp [hL, hH, StepOut.ems]
    · by_cases hp : pB.contains s.path = true
      · have hp' : s.path ∈ pB := by simpa using hp
        simp [hL, hH, hp, hp', StepOut.ems]
      · have hp' : s.path ∉ pB := by simpa using hp
        cases hres : resolveNode env s.hash with
        | error e => simp [hres, hL, hH, hp, hp', StepOut.ems]
        | ok trip =>
          obtain ⟨nb, elems, ty⟩ := trip
          cases ty with
          | Leaf =>
            by_cases hw : isWatchedStorageKey watchedKeys (leafKeyFrom s.path (elems.head?.getD [])) = true
            · simp [hres, hL, hH, hp, hp', hw, emitOne_ems]
            · simp [hres, hL, hH, hp, hp', hw, StepOut.ems]
          | Extension =>
            by_cases hi : intermediateNodes = true
            · simp [hres, hL, hH, hp, hp', hi, emitOne_ems]
            · simp [hres, hL, hH, hp, hp', hi, StepOut.ems]
          | Branch =>
            by_cases hi : intermediateNodes = true
            · simp [hres, hL, hH, hp, hp', hi, emitOne_ems]
            · simp [hres, hL, hH, hp, hp', hi, StepOut.ems]
          | Removed => simp [hres, hL, hH, hp, hp', StepOut.ems]
          | Unknown => simp [hres, hL, hH, hp, hp', StepOut.ems]

lemma createdAndUpdatedStateBody_ems (env : StateCache) (w : List Bytes)
    (s : IterStep) (st : AccountMap × List Bytes) :
    (createdAndUpdatedStateBody env w s st).ems = [] := by
  unfold createdAndUpdatedStateBody
  by_cases hL : s.isLeaf = true
  · simp [hL, StepOut.ems]
  · by_cases hH : s.hash = nullHashBytes
    · simp [hL, hH, StepOut.ems]
    · cases hres : resolveNode env s.hash with
      | error e => simp [hres, hL, hH, StepOut.ems]
      | ok trip =>
        obtain ⟨nb, elems, ty⟩ := trip
        by_cases hty : ty = NodeType.Leaf
        · subst hty
          cases hacc : env.rlpDecodeAccount ((elems[1]?).getD []) with
          | error e => simp [hres, hacc, hL, hH, StepOut.ems]
          | ok account => simp [hres, hacc, hL, hH, StepOut.ems]
        · simp [hres, hty, hL, hH, StepOut.ems]

/-! ## Counting emitted records by path -/

lemma flatMap_filter_path_nil {X : Type} (pathOf : X → Bytes) (g : IterStep → List X)
    (hg : ∀ t, ∀ x ∈ g t, pathOf x = t.path)
    (hirr : ∀ t, relevantStep t = false → g t = []) {p : Bytes} :
    ∀ l : List IterStep, (∀ t ∈ l, relevantStep t = true → t.path ≠ p) →
      (l.flatMap g).filter (fun x => pathOf x == p) = [] := by
  intro l
  induction l with
  | nil => intro _; rfl
  | cons t rest ih =>
    intro h
    rw [List.flatMap_cons, List.filter_append,
      ih (fun u hu => h u (List.mem_cons_of_mem _ hu)), List.append_nil]
    cases hr : relevantStep t with
    | false => rw [hirr t hr]; rfl
    | true =>
      have hne := h t (List.mem_cons_self _ _) hr
      apply List.filter_eq_nil_iff.mpr
      intro x hx
      simp [hg t x hx, hne]

lemma flatMap_filter_path_length {X : Type} (pathOf : X → Bytes) (g : IterStep → List X)
    (hg : ∀ t, ∀ x ∈ g t, pathOf x = t.path)
    (hirr : ∀ t, relevantStep t = false → g t = []) {p : Bytes} :
    ∀ l : List IterStep, ((l.filter relevantStep).map IterStep.path).Nodup →
      ∀ s, s ∈ l → relevantStep s = true → s.path = p →
      ((l.flatMap g).filter (fun x => pathOf x == p)).length = (g s).length := by
  intro l
  induction l with
  | nil => intro _ s hs; simp at hs
  | cons t rest ih =>
    intro hnd s hs hrel hp
    rw [List.flatMap_cons, List.filter_append, List.length_append]
    rcases List.mem_cons.mp hs with h1 | h2
    · subst h1
      have hnd1 : (∀ u ∈ rest, relevantStep u = true → ¬ u.path = s.path) ∧
          ((rest.filter relevantStep).map IterStep.path).Nodup := by
        rw [List.filter_cons_of_pos (by simpa using hrel)] at hnd
        simpa using hnd
      have hrest : ∀ u ∈ rest, relevantStep u = true → u.path ≠ p := by
        intro u hu hru
        exact hp ▸ hnd1.1 u hu hru
      rw [flatMap_filter_path_nil pathOf g hg hirr rest hrest]
      have hall : (g s).filter (fun x => pathOf x == p) = g s := by
        apply List.filter_eq_self.mpr
        intro x hx
        simp [hg s x hx, hp]
      rw [hall]
      simp
    · cases hr : relevantStep t with
      | false =>
        have hnd2 : ((rest.filter relevantStep).map IterStep.path).Nodup := by
          rw [List.filter_cons_of_neg (by simp [hr])] at hnd
          exact hnd
        rw [hirr t hr]
        simpa using ih hnd2 s h2 hrel hp
      | true =>
        have hnd2 : (∀ u ∈ rest, relevantStep u = true → ¬ u.path = t.path) ∧
            ((rest.filter relevantStep).map IterStep.path).Nodup := by
          rw [List.filter_cons_of_pos (by simpa using hr)] at hnd
          simpa using hnd
        have htp : t.path ≠ p := by
          intro he
          exact hnd2.1 s h2 hrel (hp.trans he.symm)
        have hhead : (g t).filter (fun x => pathOf x == p) = [] := by
          apply List.filter_eq_nil_iff.mpr
          intro x hx
          simp [hg t x hx, htp]
        rw [hhead]
        simpa using ih hnd2.2 s h2 hrel hp

/-! ## Claim C1: Removed records of the state deletion pass -/

/-- C1: in pass two of the state diff (deletedOrUpdatedState), on a
successful run, every node yielded by the difference iterator
diff_iter(new, old) that is not a value node and whose hash is not the
all-zeros hash produces exactly one Removed record carrying its path and
an empty node value when its path is not in the pass-one path set, and no
Removed record when it is; this is independent of the node being
classified Leaf, Extension or Branch, and every record this pass emits is
such a Removed record. -/
theorem deletedOrUpdatedState_removed_policy (env : StateCache) (sink : StateSink)
    (a b : List IterStep) (pB : List Bytes)
    (hok : (deletedOrUpdatedState env sink a b pB).2.isOk = true)
    (hnd : (((diffIter b a).filter relevantStep).map IterStep.path).Nodup)
    (s : IterStep) (hs : s ∈ diffIter b a) (hleaf : s.isLeaf = false)
    (hhash : s.hash ≠ nullHashBytes) :
    (((deletedOrUpdatedState env sink a b pB).1.filter
        (fun n => n.path == s.path)).length =
      if pB.contains s.path then 0 else 1)
    ∧ ∀ n ∈ (deletedOrUpdatedState env sink a b pB).1,
        n.nodeType = NodeType.Removed ∧ n.nodeValue = [] := by
  have hrel : relevantStep s = true := by simp [relevantStep, hleaf, hhash]
  have hemit : (deletedOrUpdatedState env sink a b pB).1 =
      (diffIter b a).flatMap (removedEmsFor pB) := by
    unfold deletedOrUpdatedState at hok ⊢
    apply runLoop_ok_emitted _ (removedEmsFor pB) _ _ _ hok
    intro i st ems st' hb
    have he := deletedOrUpdatedStateBody_ems env sink pB i st
    rw [hb] at he
    exact he
  constructor
  · rw [hemit]
    rw [flatMap_filter_path_length StateNode.path (removedEmsFor pB)
      (fun t x hx => by rw [(mem_removedEmsFor hx).1]; rfl)
      (fun t ht => by simp [removedEmsFor, ht])
      (diffIter b a) hnd s hs hrel rfl]
    unfold removedEmsFor
    by_cases hp : s.path ∈ pB
    · simp [hrel, hp]
    · simp [hrel, hp]
  · intro n hn
    rw [hemit] at hn
    obtain ⟨t, ht, hx⟩ := List.mem_flatMap.mp hn
    rw [(mem_removedEmsFor hx).1]
    exact ⟨rfl, rfl⟩

/-- C1 witness: on the concrete envW1 world the deletion pass emits exactly
one Removed record for the vanished branch node. -/
theorem deletedOrUpdatedState_removed_policy_witness :
    ((deletedOrUpdatedState envW1 okStateSink [stepW1] [] []).1.filter
        (fun n => n.path == stepW1.path)).length =
      if ([] : List Bytes).contains stepW1.path then 0 else 1 :=
  (deletedOrUpdatedState_removed_policy envW1 okStateSink [stepW1] [] []
    (by decide) (by decide) stepW1 (by decide) (by decide) (by decide)).1

/-! ## Claim C6: Removed records of the storage deletion pass -/

lemma mem_storageRemovedEmsFor {env : StateCache} {pB watchedKeys : List Bytes}
    {intermediateNodes : Bool} {s : IterStep} {x : StorageNode}
    (h : x ∈ storageRemovedEmsFor env pB watchedKeys intermediateNodes s) :
    x = removedStorageNode s.path := by
  unfold storageRemovedEmsFor at h
  repeat' split at h
  all_goals simp_all

/-- C6: in the A-side pass of the incremental storage diff
(deletedOrUpdatedStorage), on a successful run, a node yielded by
diff_iter(new, old) that is not a value node and has a non-zero hash emits
a Removed record (with empty node value) at its path exactly when the path
is outside the pass-one path set and, for a Leaf, the old leaf key passes
the storage watch filter, or, for an Extension or Branch, intermediate
storage nodes are requested; a node whose path is in the path set produces
nothing, and everything this pass emits is such a Removed record. -/
theorem deletedOrUpdatedStorage_removed_policy (env : StateCache) (sink : StorageSink)
    (a b : List IterStep) (pB watchedKeys : List Bytes) (intermediateNodes : Bool)
    (hok : (deletedOrUpdatedStorage env sink a b pB watchedKeys intermediateNodes).2.isOk = true)
    (hnd : (((diffIter b a).filter relevantStep).map IterStep.path).Nodup)
    (s : IterStep) (hs : s ∈ diffIter b a) (hleaf : s.isLeaf = false)
    (hhash : s.hash ≠ nullHashBytes)
    (nb : Bytes) (elems : List Bytes) (ty : NodeType)
    (hres : resolveNode env s.hash = Except.ok (nb, elems, ty)) :
    (((deletedOrUpdatedStorage env sink a b pB watchedKeys intermediateNodes).1.filter
        (fun n => n.path == s.path)).length =
      if pB.contains s.path then 0
      else if ty = NodeType.Leaf then
        (if isWatchedStorageKey watchedKeys (leafKeyFrom s.path (elems.headD [])) then 1 else 0)
      else if ty = NodeType.Extension ∨ ty = NodeType.Branch then
        (if intermediateNodes then 1 else 0)
      else 0)
    ∧ ∀ n ∈ (deletedOrUpdatedStorage env sink a b pB watchedKeys intermediateNodes).1,
        n.nodeType = NodeType.Removed ∧ n.nodeValue = [] := by
  have hrel : relevantStep s = true := by simp [relevantStep, hleaf, hhash]
  have hemit : (deletedOrUpdatedStorage env sink a b pB watchedKeys intermediateNodes).1 =
      (diffIter b a).flatMap (storageRemovedEmsFor env pB watchedKeys intermediateNodes) := by
    unfold deletedOrUpdatedStorage at hok ⊢
    apply runLoop_ok_emitted _ _ _ _ _ hok
    intro i st ems st' hb
    have he := deletedOrUpdatedStorageBody_ems env sink pB watchedKeys intermediateNodes i st
    rw [hb] at he
    exact he
  constructor
  · rw [hemit]
    rw [flatMap_filter_path_length StorageNode.path
      (storageRemovedEmsFor env pB watchedKeys intermediateNodes)
      (fun t x hx => by rw [mem_storageRemovedEmsFor hx]; rfl)
      (fun t ht => by simp [storageRemovedEmsFor, ht])
      (diffIter b a) hnd s hs hrel rfl]
    unfold storageRemovedEmsFor
    rw [hrel, hres]
    by_cases hp : s.path ∈ pB
    · simp [hp]
    · simp only [hp, if_false, if_neg, not_false_iff]
      cases ty with
      | Leaf =>
        by_cases hw : isWatchedStorageKey watchedKeys (leafKeyFrom s.path (elems.head?.getD [])) = true
        · simp [hw, hp]
        · simp [hw, hp]
      | Extension =>
        by_cases hi : intermediateNodes = true
        · simp [hi, hp]
        · simp [hi, hp]
      | Branch =>
        by_cases hi : intermediateNodes = true
        · simp [hi, hp]
        · simp [hi, hp]
      | Removed => simp [hp]
      | Unknown => simp [hp]
  · intro n hn
    rw [hemit] at hn
    obtain ⟨t, ht, hx⟩ := List.mem_flatMap.mp hn
    rw [mem_storageRemovedEmsFor hx]
    exact ⟨rfl, rfl⟩

/-- C6 witness: on the concrete envW6 world the storage deletion pass, with
an empty watch set, emits exactly one Removed record for the vanished
leaf. -/
theorem deletedOrUpdatedStorage_removed_policy_witness :
    ((deletedOrUpdatedStorage envW6 okStorageSink [stepW6] [] [] [] false).1.filter
        (fun n => n.path == stepW6.path)).length = 1 := by
  have h := (deletedOrUpdatedStorage_removed_policy envW6 okStorageSink [stepW6] [] [] [] false
    (by decide) (by decide) stepW6 (by decide) (by decide) (by decide)
    [100] [[32], [7]] NodeType.Leaf rfl).1
  simpa using h

/-! ## Shape of the emissions of the remaining passes -/

lemma runLoop_emitted_shape_inv {I sigma X : Type} (body : I → sigma → StepOut sigma X)
    (Q : sigma → Prop) (P : X → Prop)
    (hstep : ∀ i st ems st', body i st = StepOut.cont ems st' → Q st → Q st')
    (hc : ∀ i st ems st', body i st = StepOut.cont ems st' → Q st → ∀ x ∈ ems, P x)
    (hh : ∀ i st ems e, body i st = StepOut.halt ems e → Q st → ∀ x ∈ ems, P x) :
    ∀ (l : List I) (st : sigma), Q st → ∀ x ∈ (runLoop body l st).1, P x := by
  intro l
  induction l with
  | nil => intro st _ x hx; simp [runLoop] at hx
  | cons i rest ih =>
    intro st hQ x hx
    simp only [runLoop] at hx
    cases hb : body i st with
    | halt ems e =>
      rw [hb] at hx
      exact hh i st ems e hb hQ x hx
    | cont ems st' =>
      rw [hb] at hx
      rcases List.mem_append.mp hx with h1 | h2
      · exact hc i st ems st' hb hQ x h1
      · exact ih st' (hstep i st ems st' hb hQ) x h2

/-- Every record of the state deletion pass is a Removed record with an
empty value at a path outside the pass-one path set. -/
lemma deletedOrUpdatedState_emitted_shape (env : StateCache) (sink : StateSink)
    (a b : List IterStep) (pB : List Bytes) :
    ∀ n ∈ (deletedOrUpdatedState env sink a b pB).1,
      n.nodeType = NodeType.Removed ∧ n.nodeValue = [] ∧ pB.contains n.path = false := by
  intro n hn
  unfold deletedOrUpdatedState at hn
  obtain ⟨i, hi, hP⟩ := runLoop_emitted_from _ (fun i x => x ∈ removedEmsFor pB i)
    (fun i st ems st' hb x hx => by
      have he := deletedOrUpdatedStateBody_ems env sink pB i st
      rw [hb] at he
      simp only [StepOut.ems] at he
      show x ∈ removedEmsFor pB i
      exact he ▸ hx)
    (fun i st ems e hb x hx => by
      have he := deletedOrUpdatedStateBody_ems env sink pB i st
      rw [hb] at he
      simp only [StepOut.ems] at he
      show x ∈ removedEmsFor pB i
      exact he ▸ hx)
    _ _ n hn
  obtain ⟨hx, -, hcont⟩ := mem_removedEmsFor hP
  subst hx
  exact ⟨rfl, rfl, hcont⟩

/-- The plain pass-one body leaves the state unchanged on a skipped step
and otherwise extends the collected path set by the step path. -/
lemma createdAndUpdatedStateBody_cont_paths (env : StateCache) (w : List Bytes)
    (s : IterStep) (st : AccountMap × List Bytes) (ems : List StateNode)
    (st' : AccountMap × List Bytes)
    (hb : createdAndUpdatedStateBody env w s st = StepOut.cont ems st') :
    (relevantStep s = false ∧ st' = st) ∨
      (relevantStep s = true ∧ st'.2 = pathInsert st.2 s.path) := by
  unfold createdAndUpdatedStateBody at hb
  by_cases hL : s.isLeaf = true
  · rw [if_pos hL] at hb
    cases hb
    exact Or.inl ⟨by simp [relevantStep, hL], rfl⟩
  · rw [if_neg hL] at hb
    by_cases hH : s.hash = nullHashBytes
    · rw [if_pos hH] at hb
      cases hb
      exact Or.inl ⟨by simp [relevantStep, hH], rfl⟩
    · rw [if_neg hH] at hb
      have hrel : relevantStep s = true := by simp [relevantStep, hL, hH]
      cases hres : resolveNode env s.hash with
      | error e => simp only [hres] at hb; simp at hb
      | ok trip =>
        obtain ⟨nb, elems, ty⟩ := trip
        simp only [hres] at hb
        by_cases hty : ty = NodeType.Leaf
        · rw [if_pos hty] at hb
          cases hacc : env.rlpDecodeAccount (elems.getD 1 []) with
          | error e => simp only [hacc] at hb; simp at hb
          | ok account =>
            simp only [hacc] at hb
            cases hb
            exact Or.inr ⟨hrel, rfl⟩
        · rw [if_neg hty] at hb
          cases hb
          exact Or.inr ⟨hrel, rfl⟩

/-! ## Claim C10: pass one collects paths beyond the watch filter -/

/-- C10: in pass one with a watch list (createdAndUpdatedState), the path
of every processed node - also a leaf whose key fails the watch filter and
is therefore absent from the account map - ends up in the returned path
set, and consequently pass two, run on that path set, never emits a
Removed record at any such path. -/
theorem createdAndUpdatedState_paths_suppress_removed (env : StateCache)
    (sink : StateSink) (watched : List Bytes) (a b : List IterStep)
    (accsB : AccountMap) (pathsB : List Bytes)
    (h1 : createdAndUpdatedState env a b watched = Except.ok (accsB, pathsB))
    (s : IterStep) (hs : s ∈ diffIter a b) (hleaf : s.isLeaf = false)
    (hhash : s.hash ≠ nullHashBytes) :
    s.path ∈ pathsB ∧
      ∀ n ∈ (deletedOrUpdatedState env sink a b pathsB).1,
        n.nodeType = NodeType.Removed → n.path ≠ s.path := by
  have hrel : relevantStep s = true := by simp [relevantStep, hleaf, hhash]
  have hmem : s.path ∈ pathsB := by
    unfold createdAndUpdatedState at h1
    have hrun := runLoop_ok_state_mem (createdAndUpdatedStateBody env watched)
      (fun i st => relevantStep i = true → i.path ∈ st.2)
      (fun i j st ems st' hb hR hri => by
        rcases createdAndUpdatedStateBody_cont_paths env watched j st ems st' hb with
          ⟨-, he⟩ | ⟨-, he⟩
        · exact he ▸ hR hri
        · exact he ▸ mem_pathInsert_of_mem _ (hR hri))
      (fun i st ems st' hb hri => by
        rcases createdAndUpdatedStateBody_cont_paths env watched i st ems st' hb with
          ⟨hf, -⟩ | ⟨-, he⟩
        · exact absurd hri (by simp [hf])
        · exact he ▸ self_mem_pathInsert st.2 i.path)
      (diffIter a b) ([], []) (accsB, pathsB) h1 s hs
    exact hrun hrel
  refine ⟨hmem, ?_⟩
  intro n hn _ hnp
  have hshape := deletedOrUpdatedState_emitted_shape env sink a b pathsB n hn
  have : pathsB.contains n.path = false := hshape.2.2
  rw [hnp] at this
  simp [hmem] at this

/-- C10 witness: the unwatched changed leaf still gets its path collected,
and the deletion pass emits nothing at that path. -/
theorem createdAndUpdatedState_paths_suppress_removed_witness :
    stepW10.path ∈ [stepW10.path] ∧
      ∀ n ∈ (deletedOrUpdatedState envW10 okStateSink [] [stepW10] [stepW10.path]).1,
        n.nodeType = NodeType.Removed → n.path ≠ stepW10.path :=
  createdAndUpdatedState_paths_suppress_removed envW10 okStateSink [[2]] [] [stepW10]
    [] [stepW10.path] rfl stepW10 (by decide) (by decide) (by decide)

lemma isWatchedAddress_spec {env : StateCache} {w : List Bytes} {k : Bytes}
    (hw : w ≠ []) (h : isWatchedAddress env w k = true) :
    ∃ addr ∈ w, env.keccak addr = k := by
  unfold isWatchedAddress at h
  rw [if_neg (by simpa using hw)] at h
  simpa using h

lemma createdAndUpdatedStateBody_inv (env : StateCache) (w : List Bytes)
    (i : IterStep) (st : AccountMap × List Bytes) (ems : List StateNode)
    (st' : AccountMap × List Bytes)
    (hb : createdAndUpdatedStateBody env w i st = StepOut.cont ems st')
    (hQ : ∀ kv ∈ st.1, watchedEntry env w kv) :
    ∀ kv ∈ st'.1, watchedEntry env w kv := by
  unfold createdAndUpdatedStateBody at hb
  by_cases hL : i.isLeaf = true
  · rw [if_pos hL] at hb; cases hb; exact hQ
  · rw [if_neg hL] at hb
    by_cases hH : i.hash = nullHashBytes
    · rw [if_pos hH] at hb; cases hb; exact hQ
    · rw [if_neg hH] at hb
      cases hres : resolveNode env i.hash with
      | error e => simp only [hres] at hb; simp at hb
      | ok trip =>
        obtain ⟨nb, elems, ty⟩ := trip
        simp only [hres] at hb
        by_cases hty : ty = NodeType.Leaf
        · rw [if_pos hty] at hb
          cases hacc : env.rlpDecodeAccount (elems.getD 1 []) with
          | error e => simp only [hacc] at hb; simp at hb
          | ok account =>
            simp only [hacc] at hb
            cases hb
            intro kv hkv
            by_cases hwk : isWatchedAddress env w (leafKeyFrom i.path (elems.headD [])) = true
            · rw [if_pos hwk] at hkv
              rcases mem_amInsert hkv with h1 | h2
              · subst h1
                exact ⟨hty, hwk, rfl, rfl⟩
              · exact hQ kv h2
            · rw [if_neg hwk] at hkv
              exact hQ kv hkv
        · rw [if_neg hty] at hb
          cases hb
          exact hQ

lemma createdAndUpdatedStateBody_cont_accs (env : StateCache) (w : List Bytes)
    (i : IterStep) (st : AccountMap × List Bytes) (ems : List StateNode)
    (st' : AccountMap × List Bytes)
    (hb : createdAndUpdatedStateBody env w i st = StepOut.cont ems st') :
    st'.1 = st.1 ∨ ∃ k v, st'.1 = amInsert st.1 k v := by
  unfold createdAndUpdatedStateBody at hb
  by_cases hL : i.isLeaf = true
  · rw [if_pos hL] at hb; cases hb; exact Or.inl rfl
  · rw [if_neg hL] at hb
    by_cases hH : i.hash = nullHashBytes
    · rw [if_pos hH] at hb; cases hb; exact Or.inl rfl
    · rw [if_neg hH] at hb
      cases hres : resolveNode env i.hash with
      | error e => simp only [hres] at hb; simp at hb
      | ok trip =>
        obtain ⟨nb, elems, ty⟩ := trip
        simp only [hres] at hb
        by_cases hty : ty = NodeType.Leaf
        · rw [if_pos hty] at hb
          cases hacc : env.rlpDecodeAccount (elems.getD 1 []) with
          | error e => simp only [hacc] at hb; simp at hb
          | ok account =>
            simp only [hacc] at hb
            cases hb
            by_cases hwk : isWatchedAddress env w (leafKeyFrom i.path (elems.headD [])) = true
            · rw [if_pos hwk]
              exact Or.inr ⟨_, _, rfl⟩
            · rw [if_neg hwk]
              exact Or.inl rfl
        · rw [if_neg hty] at hb
          cases hb
          exact Or.inl rfl

lemma createdAndUpdatedState_inv (env : StateCache) (a b : List IterStep)
    (w : List Bytes) (accs : AccountMap) (paths : List Bytes)
    (h : createdAndUpdatedState env a b w = Except.ok (accs, paths)) :
    (∀ kv ∈ accs, watchedEntry env w kv) ∧ keysNodup accs := by
  unfold createdAndUpdatedState at h
  have hrun := runLoop_ok_state (createdAndUpdatedStateBody env w)
    (fun st => (∀ kv ∈ st.1, watchedEntry env w kv) ∧ keysNodup st.1)
    (fun i st ems st' hb hQ => by
      refine ⟨createdAndUpdatedStateBody_inv env w i st ems st' hb hQ.1, ?_⟩
      rcases createdAndUpdatedStateBody_cont_accs env w i st ems st' hb with h1 | ⟨k, v, h2⟩
      · exact h1 ▸ hQ.2
      · exact h2 ▸ keysNodup_amInsert k v hQ.2)
    (diffIter a b) ([], []) (accs, paths) h
    ⟨by intro kv hkv; simp at hkv, by simp [keysNodup]⟩
  exact hrun

lemma buildAccountUpdatesBody_ems (env : StateCache) (sink : StateSink)
    (wsk : List Bytes) (isn : Bool) (key : Bytes) (st : AccountMap × AccountMap) :
    ∀ x ∈ (buildAccountUpdatesBody env sink wsk isn key st).ems,
      x.nodeType = (amLookupD st.1 key).nodeType ∧
      x.leafKey = (amLookupD st.1 key).leafKey := by
  intro x hx
  unfold buildAccountUpdatesBody at hx
  rcases hd : (amLookupD st.2 key).account with _ | dAcct
  · simp [hd, emitOne_ems] at hx
    subst hx
    exact ⟨rfl, rfl⟩
  · rcases hc : (amLookupD st.1 key).account with _ | cAcct
    · simp [hd, hc, emitOne_ems] at hx
      subst hx
      exact ⟨rfl, rfl⟩
    · cases hsr : (buildStorageNodesIncremental env okStorageSink dAcct.root cAcct.root wsk isn).2 with
      | error e => simp [hd, hc, hsr, StepOut.ems] at hx
      | ok u =>
        simp [hd, hc, hsr, emitOne_ems] at hx
        subst hx
        exact ⟨rfl, rfl⟩

lemma buildAccountUpdatesBody_cont_state (env : StateCache) (sink : StateSink)
    (wsk : List Bytes) (isn : Bool) (key : Bytes) (st : AccountMap × AccountMap)
    (ems : List StateNode) (st' : AccountMap × AccountMap)
    (hb : buildAccountUpdatesBody env sink wsk isn key st = StepOut.cont ems st') :
    st' = (amDelete st.1 key, amDelete st.2 key) := by
  unfold buildAccountUpdatesBody at hb
  rcases hd : (amLookupD st.2 key).account with _ | dAcct
  · simp only [hd] at hb
    exact (emitOne_cont hb).2.symm ▸ rfl
  · rcases hc : (amLookupD st.1 key).account with _ | cAcct
    · simp only [hd, hc] at hb
      exact (emitOne_cont hb).2.symm ▸ rfl
    · cases hsr : (buildStorageNodesIncremental env okStorageSink dAcct.root cAcct.root wsk isn).2 with
      | error e => simp [hd, hc, hsr] at hb
      | ok u =>
        simp only [hd, hc, hsr] at hb
        exact (emitOne_cont hb).2.symm ▸ rfl

lemma buildAccountCreationsBody_ems (env : StateCache) (sink : StateSink)
    (wsk : List Bytes) (isn : Bool) (kv : Bytes × accountWrapper)
    (st : List CodeAndCodeHash) :
    ∀ x ∈ (buildAccountCreationsBody env sink wsk isn kv st).ems,
      x.nodeType = kv.2.nodeType ∧ x.leafKey = kv.2.leafKey := by
  intro x hx
  unfold buildAccountCreationsBody at hx
  rcases ha : kv.2.account with _ | acct
  · simp [ha, StepOut.ems] at hx
  · simp only [ha] at hx
    by_cases hch : acct.codeHash ≠ nullCodeHash env
    · rw [if_pos hch] at hx
      cases hsr : (buildStorageNodesEventual env okStorageSink acct.root wsk isn).2 with
      | error e => simp [hsr, StepOut.ems] at hx
      | ok u =>
        simp only [hsr] at hx
        cases hcc : env.contractCode (bytesToHash acct.codeHash) with
        | error e => simp [hcc, StepOut.ems] at hx
        | ok code =>
          simp [hcc, emitOne_ems] at hx
          subst hx
          exact ⟨rfl, rfl⟩
    · rw [if_neg hch] at hx
      simp [emitOne_ems] at hx
      subst hx
      exact ⟨rfl, rfl⟩

/-- C2: with a non-empty address watch list, WriteStateDiffObject takes the
leaf-only code path even when intermediate state nodes were requested;
every emitted record of type Leaf carries a leaf key equal to Keccak256 of
some watched address, and no Extension or Branch record is emitted. -/
theorem WriteStateDiffObject_watched_leaves_only (env : StateCache) (sink : StateSink)
    (args : StateRoots) (params : Params)
    (hw : params.watchedAddresses ≠ [])
    (hrange : mapRangeOk env) :
    ∀ n ∈ (WriteStateDiffObject env sink args params).1,
      (n.nodeType = NodeType.Leaf →
        ∃ addr ∈ params.watchedAddresses, env.keccak addr = n.leafKey) ∧
      n.nodeType ≠ NodeType.Extension ∧ n.nodeType ≠ NodeType.Branch := by
  intro n hn
  unfold WriteStateDiffObject at hn
  rw [if_pos (by simp [List.length_pos.mpr hw])] at hn
  unfold buildStateDiffWithoutIntermediateStateNodes at hn
  cases ho : env.openTrie args.oldStateRoot with
  | error e => simp [ho] at hn
  | ok oldSteps =>
  cases hnw : env.openTrie args.newStateRoot with
  | error e => simp [ho, hnw] at hn
  | ok newSteps =>
  simp only [ho, hnw] at hn
  cases h1 : createdAndUpdatedState env oldSteps newSteps params.watchedAddresses with
  | error e => simp [h1] at hn
  | ok pr =>
  obtain ⟨accsB, pathsB⟩ := pr
  simp only [h1] at hn
  have hacc := createdAndUpdatedState_inv env oldSteps newSteps params.watchedAddresses
    accsB pathsB h1
  have hP2 : ∀ m ∈ (deletedOrUpdatedState env sink oldSteps newSteps pathsB).1,
      (m.nodeType = NodeType.Leaf →
        ∃ addr ∈ params.watchedAddresses, env.keccak addr = m.leafKey) ∧
      m.nodeType ≠ NodeType.Extension ∧ m.nodeType ≠ NodeType.Branch := by
    intro m hm
    have hs := deletedOrUpdatedState_emitted_shape env sink oldSteps newSteps pathsB m hm
    refine ⟨fun hl => absurd (hs.1.symm.trans hl) (by decide), ?_, ?_⟩
    · rw [hs.1]; decide
    · rw [hs.1]; decide
  have hQstep : ∀ (i : Bytes) (st : AccountMap × AccountMap) ems st',
      buildAccountUpdatesBody env sink params.watchedStorageSlots
        params.intermediateStorageNodes i st = StepOut.cont ems st' →
      (∀ kv ∈ st.1, watchedEntry env params.watchedAddresses kv) →
      ∀ kv ∈ st'.1, watchedEntry env params.watchedAddresses kv := by
    intro i st ems st' hb hQ kv hkv
    rw [buildAccountUpdatesBody_cont_state env sink _ _ i st ems st' hb] at hkv
    exact hQ kv (mem_amDelete.mp hkv).1
  have hEms : ∀ (i : Bytes) (st : AccountMap × AccountMap),
      (∀ kv ∈ st.1, watchedEntry env params.watchedAddresses kv) →
      ∀ x ∈ (buildAccountUpdatesBody env sink params.watchedStorageSlots
          params.intermediateStorageNodes i st).ems,
      (x.nodeType = NodeType.Leaf →
        ∃ addr ∈ params.watchedAddresses, env.keccak addr = x.leafKey) ∧
      x.nodeType ≠ NodeType.Extension ∧ x.nodeType ≠ NodeType.Branch := by
    intro i st hQ x hxe
    obtain ⟨ht, hk⟩ := buildAccountUpdatesBody_ems env sink params.watchedStorageSlots
      params.intermediateStorageNodes i st x hxe
    cases hl : amLookup st.1 i with
    | none =>
      have hd : amLookupD st.1 i = {} := by simp [amLookupD, hl]
      rw [hd] at ht hk
      exact ⟨fun hlf => absurd (ht.symm.trans hlf) (by decide),
        by rw [ht]; decide, by rw [ht]; decide⟩
    | some v =>
      have hv := hQ (i, v) (amLookup_mem hl)
      have hd : amLookupD st.1 i = v := by simp [amLookupD, hl]
      rw [hd] at ht hk
      refine ⟨fun _ => ?_, ?_, ?_⟩
      · exact hk ▸ isWatchedAddress_spec hw hv.2.1
      · rw [ht, hv.1]; decide
      · rw [ht, hv.1]; decide
  have hP3 : ∀ (keys : List Bytes) (dels : AccountMap),
      ∀ m ∈ (buildAccountUpdates env sink params.watchedStorageSlots
          params.intermediateStorageNodes keys accsB dels).1,
      (m.nodeType = NodeType.Leaf →
        ∃ addr ∈ params.watchedAddresses, env.keccak addr = m.leafKey) ∧
      m.nodeType ≠ NodeType.Extension ∧ m.nodeType ≠ NodeType.Branch := by
    intro keys dels m hm
    unfold buildAccountUpdates at hm
    exact runLoop_emitted_shape_inv _
      (fun st => ∀ kv ∈ st.1, watchedEntry env params.watchedAddresses kv) _
      hQstep
      (fun i st ems st' hb hQ x hx => hEms i st hQ x (by rw [hb]; simpa [StepOut.ems] using hx))
      (fun i st ems e hb hQ x hx => hEms i st hQ x (by rw [hb]; simpa [StepOut.ems] using hx))
      keys (accsB, dels) hacc.1 m hm
  have hP4 : ∀ (cl : AccountMap),
      (∀ kv ∈ cl, watchedEntry env params.watchedAddresses kv) →
      ∀ m ∈ (buildAccountCreations env sink cl params.watchedStorageSlots
          params.intermediateStorageNodes).1,
      (m.nodeType = NodeType.Leaf →
        ∃ addr ∈ params.watchedAddresses, env.keccak addr = m.leafKey) ∧
      m.nodeType ≠ NodeType.Extension ∧ m.nodeType ≠ NodeType.Branch := by
    intro cl hQc m hm
    unfold buildAccountCreations at hm
    obtain ⟨kv, hkv, ht, hk⟩ := runLoop_emitted_from _
      (fun kv x => x.nodeType = kv.2.nodeType ∧ x.leafKey = kv.2.leafKey)
      (fun kv st ems st' hb x hx => buildAccountCreationsBody_ems env sink
        params.watchedStorageSlots params.intermediateStorageNodes kv st x
        (by rw [hb]; simpa [StepOut.ems] using hx))
      (fun kv st ems e hb x hx => buildAccountCreationsBody_ems env sink
        params.watchedStorageSlots params.intermediateStorageNodes kv st x
        (by rw [hb]; simpa [StepOut.ems] using hx))
      _ _ m hm
    have hkv' : kv ∈ cl := (hrange cl).mem_iff.mp hkv
    have hv := hQc kv hkv'
    refine ⟨fun _ => ?_, ?_, ?_⟩
    · exact hk ▸ isWatchedAddress_spec hw hv.2.1
    · rw [ht, hv.1]; decide
    · rw [ht, hv.1]; decide
  cases h2 : (deletedOrUpdatedState env sink oldSteps newSteps pathsB).2 with
  | error e =>
    simp only [h2] at hn
    exact hP2 n hn
  | ok accsA =>
  simp only [h2] at hn
  cases h3 : (buildAccountUpdates env sink params.watchedStorageSlots
      params.intermediateStorageNodes
      (findIntersection (sortKeys accsB) (sortKeys accsA)) accsB accsA).2 with
  | error e =>
    simp only [h3] at hn
    rcases List.mem_append.mp hn with hm | hm
    · exact hP2 n hm
    · exact hP3 _ _ n hm
  | ok pr3 =>
  obtain ⟨creationsLeft, delsLeft⟩ := pr3
  simp only [h3] at hn
  have hQc : ∀ kv ∈ creationsLeft, watchedEntry env params.watchedAddresses kv := by
    have := runLoop_ok_state (buildAccountUpdatesBody env sink params.watchedStorageSlots
        params.intermediateStorageNodes)
      (fun st => ∀ kv ∈ st.1, watchedEntry env params.watchedAddresses kv)
      hQstep
      (findIntersection (sortKeys accsB) (sortKeys accsA)) (accsB, accsA)
      (creationsLeft, delsLeft) h3 hacc.1
    exact this
  cases h4 : (buildAccountCreations env sink creationsLeft params.watchedStorageSlots
      params.intermediateStorageNodes).2 with
  | error e =>
    simp only [h4] at hn
    rcases List.mem_append.mp hn with hm | hm
    · rcases List.mem_append.mp hm with hm2 | hm2
      · exact hP2 n hm2
      · exact hP3 _ _ n hm2
    · exact hP4 creationsLeft hQc n hm
  | ok codes =>
    simp only [h4] at hn
    rcases List.mem_append.mp hn with hm | hm
    · rcases List.mem_append.mp hm with hm2 | hm2
      · exact hP2 n hm2
      · exact hP3 _ _ n hm2
    · exact hP4 creationsLeft hQc n hm

/-- C2 witness: on the concrete envW2 world with watch list [[4]] and
intermediate state nodes requested, every emitted record obeys the
watched-leaf restriction. -/
theorem WriteStateDiffObject_watched_leaves_only_witness :
    paramsW2.watchedAddresses ≠ [] ∧
    ∀ n ∈ (WriteStateDiffObject envW2 okStateSink
        { oldStateRoot := [1], newStateRoot := [2] } paramsW2).1,
      (n.nodeType = NodeType.Leaf →
        ∃ addr ∈ paramsW2.watchedAddresses, envW2.keccak addr = n.leafKey) ∧
      n.nodeType ≠ NodeType.Extension ∧ n.nodeType ≠ NodeType.Branch :=
  ⟨by decide,
    WriteStateDiffObject_watched_leaves_only envW2 okStateSink
      { oldStateRoot := [1], newStateRoot := [2] } paramsW2
      (by decide) (fun m => List.Perm.refl m)⟩

/-! ## Claim C5: identical roots produce an empty diff -/

/-- C5: for identical old and new roots, WriteStateDiffObject emits no
record to the sink, and whenever it returns a code-and-codehash list that
list is empty (on a failing root lookup the Go function returns the nil
slice next to the error, which also has length zero). -/
theorem WriteStateDiffObject_same_root (env : StateCache) (sink : StateSink)
    (R : Bytes) (params : Params) (hrange : mapRangeOk env) :
    (WriteStateDiffObject env sink { oldStateRoot := R, newStateRoot := R } params).1 = []
    ∧ ∀ codes,
        (WriteStateDiffObject env sink { oldStateRoot := R, newStateRoot := R } params).2 =
          Except.ok codes → codes = [] := by
  have hmr : env.mapRange [] = [] := (hrange []).eq_nil
  have hwo : (buildStateDiffWithoutIntermediateStateNodes env sink
        { oldStateRoot := R, newStateRoot := R } params).1 = [] ∧
      ∀ codes, (buildStateDiffWithoutIntermediateStateNodes env sink
        { oldStateRoot := R, newStateRoot := R } params).2 = Except.ok codes → codes = [] := by
    unfold buildStateDiffWithoutIntermediateStateNodes
    cases ho : env.openTrie R with
    | error e =>
      refine ⟨by simp [ho], ?_⟩
      intro codes h
      simp [ho] at h
    | ok t =>
      refine ⟨?_, ?_⟩
      · simp [ho, createdAndUpdatedState, deletedOrUpdatedState, buildAccountUpdates,
          buildAccountCreations, diffIter_self, runLoop, hmr, sortKeys, findIntersection]
      · intro codes h
        simp [ho, createdAndUpdatedState, deletedOrUpdatedState, buildAccountUpdates,
          buildAccountCreations, diffIter_self, runLoop, hmr, sortKeys, findIntersection] at h
        exact h
  have hwi : (buildStateDiffWithIntermediateStateNodes env sink
        { oldStateRoot := R, newStateRoot := R } params).1 = [] ∧
      ∀ codes, (buildStateDiffWithIntermediateStateNodes env sink
        { oldStateRoot := R, newStateRoot := R } params).2 = Except.ok codes → codes = [] := by
    unfold buildStateDiffWithIntermediateStateNodes
    cases ho : env.openTrie R with
    | error e =>
      refine ⟨by simp [ho], ?_⟩
      intro codes h
      simp [ho] at h
    | ok t =>
      refine ⟨?_, ?_⟩
      · simp [ho, createdAndUpdatedStateWithIntermediateNodes, deletedOrUpdatedState,
          buildAccountUpdates, buildAccountCreations, diffIter_self, runLoop, hmr,
          sortKeys, findIntersection]
      · intro codes h
        simp [ho, createdAndUpdatedStateWithIntermediateNodes, deletedOrUpdatedState,
          buildAccountUpdates, buildAccountCreations, diffIter_self, runLoop, hmr,
          sortKeys, findIntersection] at h
        exact h
  unfold WriteStateDiffObject
  by_cases hc : (!params.intermediateStateNodes || params.watchedAddresses.length > 0) = true
  · rw [if_pos hc]
    exact hwo
  · rw [if_neg hc]
    exact hwi

/-- C5 witness: on the concrete envW1 world, diffing the one-node root [1]
against itself emits nothing. -/
theorem WriteStateDiffObject_same_root_witness :
    (WriteStateDiffObject envW1 okStateSink
        { oldStateRoot := [1], newStateRoot := [1] } {}).1 = [] :=
  (WriteStateDiffObject_same_root envW1 okStateSink [1] {} (fun m => List.Perm.refl m)).1

/-! ## Claim C8: no partial StateObject next to an error -/

/-- C8: whenever BuildStateDiffObject returns an error, the StateObject it
returns next to it is the zero value: no nodes, no code entries, no block
fields. -/
theorem BuildStateDiffObject_empty_on_error (env : StateCache) (args : Args)
    (params : Params) (e : String)
    (h : (BuildStateDiffObject env args params).2 = some e) :
    (BuildStateDiffObject env args params).1 = emptyStateObject := by
  unfold BuildStateDiffObject at h ⊢
  cases hr : (WriteStateDiffObject env okStateSink
      { oldStateRoot := args.oldStateRoot, newStateRoot := args.newStateRoot } params).2 with
  | error e2 => simp [hr]
  | ok codes => simp [hr] at h

/-- C8 witness: a failing root lookup makes BuildStateDiffObject return
the empty StateObject next to the wrapped error. -/
theorem BuildStateDiffObject_empty_on_error_witness :
    (BuildStateDiffObject envW8
        { oldStateRoot := [1], newStateRoot := [2], blockNumber := 7, blockHash := [3] }
        {}).1 = emptyStateObject :=
  BuildStateDiffObject_empty_on_error envW8
    { oldStateRoot := [1], newStateRoot := [2], blockNumber := 7, blockHash := [3] } {}
    ("error creating trie for oldStateRoot: missing root") rfl

/-! ## Claim C9: updated and created leaf groups are disjoint -/

lemma buildAccountUpdatesBody_cont_spec (env : StateCache) (sink : StateSink)
    (wsk : List Bytes) (isn : Bool) (key : Bytes) (st : AccountMap × AccountMap)
    (ems : List StateNode) (st' : AccountMap × AccountMap)
    (hb : buildAccountUpdatesBody env sink wsk isn key st = StepOut.cont ems st') :
    (∃ n, ems = [n] ∧ n.leafKey = (amLookupD st.1 key).leafKey) ∧
    st' = (amDelete st.1 key, amDelete st.2 key) := by
  unfold buildAccountUpdatesBody at hb
  rcases hd : (amLookupD st.2 key).account with _ | dAcct
  · simp only [hd] at hb
    obtain ⟨he, hst⟩ := emitOne_cont hb
    exact ⟨⟨_, he, rfl⟩, hst.symm ▸ rfl⟩
  · rcases hc : (amLookupD st.1 key).account with _ | cAcct
    · simp only [hd, hc] at hb
      obtain ⟨he, hst⟩ := emitOne_cont hb
      exact ⟨⟨_, he, rfl⟩, hst.symm ▸ rfl⟩
    · cases hsr : (buildStorageNodesIncremental env okStorageSink dAcct.root cAcct.root wsk isn).2 with
      | error e => simp [hd, hc, hsr] at hb
      | ok u =>
        simp only [hd, hc, hsr] at hb
        obtain ⟨he, hst⟩ := emitOne_cont hb
        exact ⟨⟨_, he, rfl⟩, hst.symm ▸ rfl⟩

lemma buildAccountUpdates_emitted_keys (env : StateCache) (sink : StateSink)
    (wsk : List Bytes) (isn : Bool) :
    ∀ (keys : List Bytes) (c d : AccountMap) (res : AccountMap × AccountMap),
      (buildAccountUpdates env sink wsk isn keys c d).2 = Except.ok res →
      keysNodup c → (∀ kv ∈ c, kv.2.leafKey = kv.1) →
      keys.Nodup → (∀ k ∈ keys, ∃ v, amLookup c k = some v) →
      (buildAccountUpdates env sink wsk isn keys c d).1.map StateNode.leafKey = keys := by
  intro keys
  induction keys with
  | nil => intro c d res _ _ _ _ _; rfl
  | cons key rest ih =>
    intro c d res hres hnd hcons hknd hsub
    unfold buildAccountUpdates at hres ⊢
    simp only [runLoop] at hres ⊢
    cases hb : buildAccountUpdatesBody env sink wsk isn key (c, d) with
    | halt ems e =>
      rw [hb] at hres
      replace hres : (Except.error e : Except String (AccountMap × AccountMap)) =
          Except.ok res := hres
      simp at hres
    | cont ems st' =>
      rw [hb] at hres
      replace hres : (runLoop (buildAccountUpdatesBody env sink wsk isn) rest st').2 =
          Except.ok res := hres
      obtain ⟨⟨n, hems, hnk⟩, hst⟩ := buildAccountUpdatesBody_cont_spec env sink wsk isn
        key (c, d) ems st' hb
      obtain ⟨v, hv⟩ := hsub key (List.mem_cons_self _ _)
      have hkey : (amLookupD (c, d).1 key).leafKey = key := by
        simp only [amLookupD, hv, Option.getD_some]
        exact hcons (key, v) (amLookup_mem hv)
      have hknd' := List.nodup_cons.mp hknd
      have hihargs : ∀ k ∈ rest, ∃ v2, amLookup (amDelete c key) k = some v2 := by
        intro k hk
        rw [amLookup_amDelete_ne c (by intro he; exact hknd'.1 (he ▸ hk))]
        exact hsub k (List.mem_cons_of_mem _ hk)
      have hrec := ih (amDelete c key) (amDelete d key) res
        (by rw [hst] at hres; exact hres)
        (keysNodup_amDelete key hnd)
        (fun kv hkv => hcons kv (mem_amDelete.mp hkv).1)
        hknd'.2 hihargs
      unfold buildAccountUpdates at hrec
      show (ems ++ (runLoop (buildAccountUpdatesBody env sink wsk isn) rest st').1).map
          StateNode.leafKey = key :: rest
      rw [hst, List.map_append, hrec, hems]
      simp only [List.map_cons, List.map_nil]
      rw [hnk, hkey]
      rfl

lemma buildAccountUpdates_deletes (env : StateCache) (sink : StateSink)
    (wsk : List Bytes) (isn : Bool) :
    ∀ (keys : List Bytes) (c d c' d' : AccountMap),
      (buildAccountUpdates env sink wsk isn keys c d).2 = Except.ok (c', d') →
      ∀ k ∈ keys, amLookup c' k = none ∧ amLookup d' k = none := by
  intro keys
  induction keys with
  | nil => intro c d c' d' _ k hk; simp at hk
  | cons key rest ih =>
    intro c d c' d' hres k hk
    unfold buildAccountUpdates at hres
    simp only [runLoop] at hres
    cases hb : buildAccountUpdatesBody env sink wsk isn key (c, d) with
    | halt ems e =>
      rw [hb] at hres
      replace hres : (Except.error e : Except String (AccountMap × AccountMap)) =
          Except.ok (c', d') := hres
      simp at hres
    | cont ems st' =>
      rw [hb] at hres
      replace hres : (runLoop (buildAccountUpdatesBody env sink wsk isn) rest st').2 =
          Except.ok (c', d') := hres
      have hst := buildAccountUpdatesBody_cont_state env sink wsk isn key (c, d) ems st' hb
      rcases List.mem_cons.mp hk with h1 | h2
      · subst h1
        exact runLoop_ok_state (buildAccountUpdatesBody env sink wsk isn)
          (fun st => amLookup st.1 k = none ∧ amLookup st.2 k = none)
          (fun i st ems2 st2 hb2 hQ => by
            rw [buildAccountUpdatesBody_cont_state env sink wsk isn i st ems2 st2 hb2]
            show amLookup (amDelete st.1 i) k = none ∧ amLookup (amDelete st.2 i) k = none
            by_cases hik : k = i
            · subst hik
              exact ⟨amLookup_amDelete_self _ _, amLookup_amDelete_self _ _⟩
            · rw [amLookup_amDelete_ne _ hik, amLookup_amDelete_ne _ hik]
              exact hQ)
          rest st' (c', d') hres
          (by
            rw [hst]
            exact ⟨amLookup_amDelete_self _ _, amLookup_amDelete_self _ _⟩)
      · exact ih st'.1 st'.2 c' d' (by simpa using hres) k h2

lemma buildAccountUpdates_ok_state_keys (env : StateCache) (sink : StateSink)
    (wsk : List Bytes) (isn : Bool) (keys : List Bytes) (c d c' d' : AccountMap)
    (hres : (buildAccountUpdates env sink wsk isn keys c d).2 = Except.ok (c', d'))
    (hnd : keysNodup c) (hcons : ∀ kv ∈ c, kv.2.leafKey = kv.1) :
    keysNodup c' ∧ ∀ kv ∈ c', kv.2.leafKey = kv.1 := by
  unfold buildAccountUpdates at hres
  exact runLoop_ok_state (buildAccountUpdatesBody env sink wsk isn)
    (fun st => keysNodup st.1 ∧ ∀ kv ∈ st.1, kv.2.leafKey = kv.1)
    (fun i st ems st2 hb hQ => by
      rw [buildAccountUpdatesBody_cont_state env sink wsk isn i st ems st2 hb]
      exact ⟨keysNodup_amDelete i hQ.1, fun kv hkv => hQ.2 kv (mem_amDelete.mp hkv).1⟩)
    keys (c, d) (c', d') hres ⟨hnd, hcons⟩

/-- C9: within one state diff invocation, the leaf keys emitted as updated
leaves and the leaf keys emitted as created leaves are disjoint, because
buildAccountUpdates deletes every updated key from both account maps
before buildAccountCreations iterates the remaining creations map. -/
theorem passThree_leaf_groups_disjoint (env : StateCache)
    (sink2 sink3 sink4 : StateSink) (watched : List Bytes) (a b : List IterStep)
    (accsB : AccountMap) (pathsB : List Bytes) (accsA : AccountMap)
    (wsk : List Bytes) (isn : Bool) (creationsLeft delsLeft : AccountMap)
    (h1 : createdAndUpdatedState env a b watched = Except.ok (accsB, pathsB))
    (_h2 : (deletedOrUpdatedState env sink2 a b pathsB).2 = Except.ok accsA)
    (h3 : (buildAccountUpdates env sink3 wsk isn
        (findIntersection (sortKeys accsB) (sortKeys accsA)) accsB accsA).2 =
      Except.ok (creationsLeft, delsLeft))
    (hrange : mapRangeOk env) :
    (∀ k ∈ findIntersection (sortKeys accsB) (sortKeys accsA),
        amLookup creationsLeft k = none ∧ amLookup delsLeft k = none) ∧
    ∀ n ∈ (buildAccountUpdates env sink3 wsk isn
        (findIntersection (sortKeys accsB) (sortKeys accsA)) accsB accsA).1,
      ∀ m ∈ (buildAccountCreations env sink4 creationsLeft wsk isn).1,
        n.leafKey ≠ m.leafKey := by
  have hBinv := createdAndUpdatedState_inv env a b watched accsB pathsB h1
  have hBnodup : keysNodup accsB := hBinv.2
  have hBcons : ∀ kv ∈ accsB, kv.2.leafKey = kv.1 := fun kv hkv => (hBinv.1 kv hkv).2.2.1
  have hund : (findIntersection (sortKeys accsB) (sortKeys accsA)).Nodup :=
    findIntersection_nodup (sortKeys_nodup hBnodup)
  have hsub : ∀ k ∈ findIntersection (sortKeys accsB) (sortKeys accsA),
      ∃ v, amLookup accsB k = some v := by
    intro k hk
    have hkm := sortKeys_mem.mp (findIntersection_mem.mp hk).1
    obtain ⟨kv, hkv, hfst⟩ := List.mem_map.mp hkm
    refine ⟨kv.2, ?_⟩
    rw [← hfst]
    exact amLookup_of_mem hkv hBnodup
  have hdel := buildAccountUpdates_deletes env sink3 wsk isn
    (findIntersection (sortKeys accsB) (sortKeys accsA)) accsB accsA
    creationsLeft delsLeft h3
  refine ⟨hdel, ?_⟩
  intro n hn m hm
  have hkeys := buildAccountUpdates_emitted_keys env sink3 wsk isn
    (findIntersection (sortKeys accsB) (sortKeys accsA)) accsB accsA
    (creationsLeft, delsLeft) h3 hBnodup hBcons hund hsub
  have hnk : n.leafKey ∈ findIntersection (sortKeys accsB) (sortKeys accsA) :=
    hkeys ▸ List.mem_map_of_mem StateNode.leafKey hn
  have hCL := buildAccountUpdates_ok_state_keys env sink3 wsk isn
    (findIntersection (sortKeys accsB) (sortKeys accsA)) accsB accsA
    creationsLeft delsLeft h3 hBnodup hBcons
  have hm' := hm
  unfold buildAccountCreations at hm'
  obtain ⟨kv, hkv, hP⟩ := runLoop_emitted_from _
    (fun kv (x : StateNode) => x.leafKey = kv.2.leafKey)
    (fun kv st ems st' hb x hx => (buildAccountCreationsBody_ems env sink4 wsk isn kv st x
      (by rw [hb]; simpa [StepOut.ems] using hx)).2)
    (fun kv st ems e hb x hx => (buildAccountCreationsBody_ems env sink4 wsk isn kv st x
      (by rw [hb]; simpa [StepOut.ems] using hx)).2)
    _ _ m hm'
  have hkvm : kv ∈ creationsLeft := (hrange creationsLeft).mem_iff.mp hkv
  have hmk : m.leafKey = kv.1 := hP.trans (hCL.2 kv hkvm)
  intro he
  have hlk : amLookup creationsLeft kv.1 = some kv.2 := amLookup_of_mem hkvm hCL.1
  have h0 := (hdel kv.1 (by rw [← hmk, ← he]; exact hnk)).1
  rw [h0] at hlk
  exact Option.noConfusion hlk

/-- C9 witness: on the concrete envW9 run with one updated and one created
account, the two pass-three groups carry disjoint leaf keys. -/
theorem passThree_leaf_groups_disjoint_witness :
    (∀ k ∈ findIntersection (sortKeys [([5], accW5), ([23], accW23)])
        (sortKeys [([5], accW5A)]),
      amLookup [([23], accW23)] k = none ∧ amLookup ([] : AccountMap) k = none) ∧
    ∀ n ∈ (buildAccountUpdates envW9 okStateSink [] false
        (findIntersection (sortKeys [([5], accW5), ([23], accW23)])
          (sortKeys [([5], accW5A)]))
        [([5], accW5), ([23], accW23)] [([5], accW5A)]).1,
      ∀ m ∈ (buildAccountCreations envW9 okStateSink [([23], accW23)] [] false).1,
        n.leafKey ≠ m.leafKey :=
  passThree_leaf_groups_disjoint envW9 okStateSink okStateSink okStateSink []
    [stepO9] [stepA9, stepB9] [([5], accW5), ([23], accW23)] [[0, 5], [1, 7]]
    [([5], accW5A)] [] false [([23], accW23)] [] rfl rfl rfl
    (fun m => List.Perm.refl m)

lemma buildAccountCreationsBody_ems_eq (env : StateCache) (sink : StateSink)
    (wsk : List Bytes) (isn : Bool) (kv : Bytes × accountWrapper)
    (st : List CodeAndCodeHash) :
    (buildAccountCreationsBody env sink wsk isn kv st).ems =
      creationEmsFor env wsk isn kv := by
  unfold buildAccountCreationsBody creationEmsFor
  rcases ha : kv.2.account with _ | acct
  · simp [StepOut.ems]
  · by_cases hch : acct.codeHash = nullCodeHash env
    · simp [hch, emitOne_ems]
    · cases hsr : (buildStorageNodesEventual env okStorageSink acct.root wsk isn).2 with
      | error e => simp [hch, hsr, StepOut.ems]
      | ok u =>
        cases hcc : env.contractCode (bytesToHash acct.codeHash) with
        | error e => simp [hch, hsr, hcc, StepOut.ems]
        | ok code => simp [hch, hsr, hcc, emitOne_ems]

lemma buildAccountCreationsBody_cont_codes (env : StateCache) (sink : StateSink)
    (wsk : List Bytes) (isn : Bool) (kv : Bytes × accountWrapper)
    (st : List CodeAndCodeHash) (ems : List StateNode) (st' : List CodeAndCodeHash)
    (hb : buildAccountCreationsBody env sink wsk isn kv st = StepOut.cont ems st') :
    st' = st ++ creationCodeFor env kv := by
  unfold buildAccountCreationsBody at hb
  unfold creationCodeFor
  rcases ha : kv.2.account with _ | acct
  · simp [ha] at hb
  · simp only [ha] at hb ⊢
    by_cases hch : acct.codeHash = nullCodeHash env
    · simp [hch] at hb ⊢
      rw [(emitOne_cont hb).2]
    · cases hsr : (buildStorageNodesEventual env okStorageSink acct.root wsk isn).2 with
      | error e => simp [hch, hsr] at hb
      | ok u =>
        simp only [ne_eq, hch, not_false_iff, if_true, hsr] at hb ⊢
        cases hcc : env.contractCode (bytesToHash acct.codeHash) with
        | error e => simp [hcc] at hb
        | ok code =>
          simp only [hcc] at hb ⊢
          rw [(emitOne_cont hb).2]

lemma buildAccountCreationsGo_ok_codes (env : StateCache) (sink : StateSink)
    (wsk : List Bytes) (isn : Bool) :
    ∀ (l : AccountMap) (st codes : List CodeAndCodeHash),
      (runLoop (buildAccountCreationsBody env sink wsk isn) l st).2 = Except.ok codes →
      codes = st ++ l.flatMap (creationCodeFor env) := by
  intro l
  induction l with
  | nil =>
    intro st codes h
    simp only [runLoop, Except.ok.injEq] at h
    simp [← h]
  | cons kv rest ih =>
    intro st codes h
    simp only [runLoop] at h
    cases hb : buildAccountCreationsBody env sink wsk isn kv st with
    | halt ems e => rw [hb] at h; simp at h
    | cont ems st' =>
      rw [hb] at h
      replace h : (runLoop (buildAccountCreationsBody env sink wsk isn) rest st').2 =
          Except.ok codes := h
      rw [ih st' codes h, buildAccountCreationsBody_cont_codes env sink wsk isn kv st ems st' hb]
      simp [List.flatMap_cons]

/-- C4 amended: on a successful run, buildAccountCreations emits, for each
remaining entry in map-range order, the Leaf record with the eventual
storage walk of buildStorageNodesEventual attached exactly when the
account code hash differs from the empty-code hash, and appends a
code-and-codehash pair exactly for those accounts; an account whose code
hash equals the empty-code hash gets its Leaf emitted with no storage
nodes and contributes no pair. -/
theorem buildAccountCreations_spec (env : StateCache) (sink : StateSink)
    (cl : AccountMap) (wsk : List Bytes) (isn : Bool) (codes : List CodeAndCodeHash)
    (hok : (buildAccountCreations env sink cl wsk isn).2 = Except.ok codes) :
    (buildAccountCreations env sink cl wsk isn).1 =
      (env.mapRange cl).flatMap (creationEmsFor env wsk isn) ∧
    codes = (env.mapRange cl).flatMap (creationCodeFor env) := by
  unfold buildAccountCreations at hok ⊢
  constructor
  · apply runLoop_ok_emitted _ (creationEmsFor env wsk isn) _ _ _ (by rw [hok]; rfl)
    intro i st ems st' hb
    have he := buildAccountCreationsBody_ems_eq env sink wsk isn i st
    rw [hb] at he
    exact he
  · exact buildAccountCreationsGo_ok_codes env sink wsk isn (env.mapRange cl) [] codes hok

/-- C4 counterexample: buildAccountCreations emits the Leaf of the
empty-code-hash account with no storage nodes attached, although the
eventual storage walk over its storage trie yields a record; so the
eventual walk is not invoked for every remaining key. -/
theorem buildAccountCreations_skips_storage_counterexample :
    ((buildAccountCreations envX4 okStateSink [([5], accX4)] [] true).1.map
        (fun n => n.storageNodes) = [[]]) ∧
    (buildStorageNodesEventual envX4 okStorageSink [7] [] true).1.length = 1 :=
  ⟨rfl, rfl⟩

/-- C4 witness: on a map holding the empty-code-hash account and a contract
account, the creations pass matches its per-entry characterization; only
the contract account contributes a code pair. -/
theorem buildAccountCreations_spec_witness :
    ((buildAccountCreations envX4 okStateSink [([5], accX4), ([6], accX4b)] [] true).1 =
      ([([5], accX4), ([6], accX4b)] : AccountMap).flatMap (creationEmsFor envX4 [] true)) ∧
    [{ hash := bytesToHash [8], code := [77] }] =
      ([([5], accX4), ([6], accX4b)] : AccountMap).flatMap (creationCodeFor envX4) :=
  buildAccountCreations_spec envX4 okStateSink [([5], accX4), ([6], accX4b)] [] true
    [{ hash := bytesToHash [8], code := [77] }] rfl

/-- C3 counterexample: with the reversed map-range order, a legal Go map
iteration, the created leaves of a full WriteStateDiffObject run come out
with leaf keys [23] then [5], which is not ascending; so pass three does
not emit creations in ascending leaf-key order. -/
theorem passThree_creations_not_sorted_counterexample :
    mapRangeOk envX3 ∧
    ((WriteStateDiffObject envX3 okStateSink
        { oldStateRoot := [1], newStateRoot := [2] } {}).1.map StateNode.leafKey =
      [[23], [5]]) ∧
    ¬ List.Sorted (fun x y : Bytes => x ≤ y) [[23], [5]] :=
  ⟨fun m => List.reverse_perm m, rfl, by decide⟩

/-- C3 amended: within pass three the updated account leaves are emitted in
ascending lexicographic order of their leaf keys (the byte-list order,
which agrees with the hex-string order), while the created account leaves
that follow are emitted in whatever order the Go runtime ranges over the
creations map, with no sorting applied. -/
theorem passThree_updates_sorted (env : StateCache) (sink3 sink4 : StateSink)
    (watched : List Bytes) (a b : List IterStep) (accsB : AccountMap)
    (pathsB : List Bytes) (accsA : AccountMap) (wsk : List Bytes) (isn : Bool)
    (creationsLeft delsLeft : AccountMap) (codes : List CodeAndCodeHash)
    (h1 : createdAndUpdatedState env a b watched = Except.ok (accsB, pathsB))
    (h3 : (buildAccountUpdates env sink3 wsk isn
        (findIntersection (sortKeys accsB) (sortKeys accsA)) accsB accsA).2 =
      Except.ok (creationsLeft, delsLeft))
    (h4 : (buildAccountCreations env sink4 creationsLeft wsk isn).2 = Except.ok codes) :
    List.Sorted (fun x y : Bytes => x ≤ y)
      ((buildAccountUpdates env sink3 wsk isn
          (findIntersection (sortKeys accsB) (sortKeys accsA)) accsB accsA).1.map
        StateNode.leafKey) ∧
    (buildAccountCreations env sink4 creationsLeft wsk isn).1 =
      (env.mapRange creationsLeft).flatMap (creationEmsFor env wsk isn) := by
  constructor
  · have hBinv := createdAndUpdatedState_inv env a b watched accsB pathsB h1
    have hBnodup : keysNodup accsB := hBinv.2
    have hBcons : ∀ kv ∈ accsB, kv.2.leafKey = kv.1 := fun kv hkv => (hBinv.1 kv hkv).2.2.1
    have hund : (findIntersection (sortKeys accsB) (sortKeys accsA)).Nodup :=
      findIntersection_nodup (sortKeys_nodup hBnodup)
    have hsub : ∀ k ∈ findIntersection (sortKeys accsB) (sortKeys accsA),
        ∃ v, amLookup accsB k = some v := by
      intro k hk
      have hkm := sortKeys_mem.mp (findIntersection_mem.mp hk).1
      obtain ⟨kv, hkv, hfst⟩ := List.mem_map.mp hkm
      refine ⟨kv.2, ?_⟩
      rw [← hfst]
      exact amLookup_of_mem hkv hBnodup
    rw [buildAccountUpdates_emitted_keys env sink3 wsk isn
      (findIntersection (sortKeys accsB) (sortKeys accsA)) accsB accsA
      (creationsLeft, delsLeft) h3 hBnodup hBcons hund hsub]
    exact findIntersection_sorted _ (sortKeys_sorted accsB)
  · unfold buildAccountCreations at h4 ⊢
    apply runLoop_ok_emitted _ (creationEmsFor env wsk isn) _ _ _ (by rw [h4]; rfl)
    intro i st ems st' hb
    have he := buildAccountCreationsBody_ems_eq env sink4 wsk isn i st
    rw [hb] at he
    exact he

/-- C3 witness: on the concrete envW9 run with one updated and one created
account, the updated group comes out sorted and the creations follow the
map-range order. -/
theorem passThree_updates_sorted_witness :
    List.Sorted (fun x y : Bytes => x ≤ y)
      ((buildAccountUpdates envW9 okStateSink [] false
          (findIntersection (sortKeys [([5], accW5), ([23], accW23)])
            (sortKeys [([5], accW5A)]))
          [([5], accW5), ([23], accW23)] [([5], accW5A)]).1.map
        StateNode.leafKey) ∧
    (buildAccountCreations envW9 okStateSink [([23], accW23)] [] false).1 =
      (envW9.mapRange [([23], accW23)]).flatMap (creationEmsFor envW9 [] false) :=
  passThree_updates_sorted envW9 okStateSink okStateSink [] [stepO9] [stepA9, stepB9]
    [([5], accW5), ([23], accW23)] [[0, 5], [1, 7]] [([5], accW5A)] [] false
    [([23], accW23)] [] [] rfl rfl rfl

/-! ## Claim C7: sink errors abort the invocation but come back wrapped -/

/-- C7 counterexample: with a sink that fails with the error "boom", the
invocation is aborted, but WriteStateDiffObject does not return the sink
error itself: it returns the error wrapped in the context prefix of the
failing pass ("error collecting deletedOrUpdatedNodes: ", builder.go line
264), so the spec sentence "returns that error" is wrong about the
returned value. -/
theorem WriteStateDiffObject_sink_error_wrapped_counterexample :
    (WriteStateDiffObject envX7 (fun _ => Except.error ("boom"))
        { oldStateRoot := [1], newStateRoot := [2] } {}).2 =
      Except.error ("error collecting deletedOrUpdatedNodes: boom") ∧
    ("error collecting deletedOrUpdatedNodes: boom" : String) ≠ ("boom" : String) :=
  ⟨rfl, by decide⟩


lemma emitOne_cont_inv {S X : Type} {sink : X → Except String Unit} {n : X} {st : S}
    {ems : List X} {st' : S} (h : emitOne sink n st = StepOut.cont ems st') :
    ems = [n] ∧ sink n = Except.ok () := by
  unfold emitOne at h
  cases hs : sink n with
  | ok u =>
    cases u
    simp only [hs] at h
    injection h with h1 h2
    exact ⟨h1.symm, rfl⟩
  | error es =>
    simp only [hs] at h
    cases h

lemma emitOne_halt_inv {S X : Type} {sink : X → Except String Unit} {n : X} {st : S}
    {ems : List X} {e' : String} (h : emitOne sink n st = StepOut.halt ems e') :
    ems = [n] ∧ sink n = Except.error e' := by
  unfold emitOne at h
  cases hs : sink n with
  | ok u =>
    simp only [hs] at h
    cases h
  | error es =>
    simp only [hs] at h
    injection h with h1 h2
    exact ⟨h1.symm, h2 ▸ rfl⟩

lemma runLoop_reject_last {I sigma X : Type} (body : I → sigma → StepOut sigma X)
    (sink : X → Except String Unit)
    (hA : ∀ i st ems st', body i st = StepOut.cont ems st' →
      ems = [] ∨ ∃ y, ems = [y] ∧ sink y = Except.ok ())
    (hB : ∀ i st ems e', body i st = StepOut.halt ems e' →
      ems = [] ∨ ∃ y, ems = [y] ∧ (sink y = Except.ok () ∨ sink y = Except.error e')) :
    ∀ (l : List I) (st : sigma) (n : X) (e : String),
      n ∈ (runLoop body l st).1 → sink n = Except.error e →
      (∃ pre, (runLoop body l st).1 = pre ++ [n] ∧ ∀ x ∈ pre, sink x = Except.ok ()) ∧
      (runLoop body l st).2 = Except.error e := by
  intro l
  induction l with
  | nil =>
    intro st n e hn he
    simp [runLoop] at hn
  | cons i rest ih =>
    intro st n e hn he
    simp only [runLoop] at hn ⊢
    cases hb : body i st with
    | cont ems st' =>
      simp only [hb] at hn ⊢
      rcases hA i st ems st' hb with h0 | ⟨y, hy, hys⟩
      · subst h0
        simp only [List.nil_append] at hn ⊢
        exact ih st' n e hn he
      · subst hy
        rcases List.mem_append.mp hn with hm | hm
        · have hny : n = y := List.mem_singleton.mp hm
          rw [hny] at he
          exact absurd (hys.symm.trans he) (fun hc => Except.noConfusion hc)
        · obtain ⟨⟨pre, hpre, hok⟩, h2⟩ := ih st' n e hm he
          refine ⟨⟨[y] ++ pre, ?_, ?_⟩, h2⟩
          · rw [hpre]
            exact (List.append_assoc _ _ _).symm
          · intro x hx
            rcases List.mem_append.mp hx with hx1 | hx2
            · rw [List.mem_singleton.mp hx1]
              exact hys
            · exact hok x hx2
    | halt ems e' =>
      simp only [hb] at hn ⊢
      rcases hB i st ems e' hb with h0 | ⟨y, hy, hys⟩
      · subst h0
        simp at hn
      · subst hy
        have hny : n = y := List.mem_singleton.mp hn
        subst hny
        rcases hys with hok | herr
        · exact absurd (hok.symm.trans he) (fun hc => Except.noConfusion hc)
        · have he2 : e' = e := by
            injection herr.symm.trans he
          subst he2
          exact ⟨⟨[], rfl, fun x hx => absurd hx (List.not_mem_nil x)⟩, rfl⟩

lemma createdAndUpdatedStateIntermediateBody_sink (env : StateCache) (sink : StateSink) :
    (∀ (i : IterStep) (st : AccountMap × List Bytes) ems st',
      createdAndUpdatedStateIntermediateBody env sink i st = StepOut.cont ems st' →
        ems = [] ∨ ∃ y, ems = [y] ∧ sink y = Except.ok ()) ∧
    (∀ (i : IterStep) (st : AccountMap × List Bytes) ems e',
      createdAndUpdatedStateIntermediateBody env sink i st = StepOut.halt ems e' →
        ems = [] ∨ ∃ y, ems = [y] ∧ (sink y = Except.ok () ∨ sink y = Except.error e')) := by
  constructor <;> intro i st ems z hb <;>
  · unfold createdAndUpdatedStateIntermediateBody at hb
    by_cases hL : i.isLeaf = true
    · simp [hL] at hb
      all_goals
        first
        | exact Or.inl hb
        | exact Or.inl hb.1
        | exact Or.inl hb.1.symm
    · by_cases hH : i.hash = nullHashBytes
      · simp [hL, hH] at hb
        all_goals
          first
          | exact Or.inl hb
          | exact Or.inl hb.1
          | exact Or.inl hb.1.symm
      · cases hres : resolveNode env i.hash with
        | error er =>
          simp [hL, hH, hres] at hb
          all_goals
            first
            | exact Or.inl hb
            | exact Or.inl hb.1
            | exact Or.inl hb.1.symm
        | ok trip =>
          obtain ⟨nb, elems, ty⟩ := trip
          cases ty with
          | Leaf =>
            cases hacc : env.rlpDecodeAccount ((elems[1]?).getD []) with
            | error er =>
              simp [hL, hH, hres, hacc] at hb
              all_goals
                first
                | exact Or.inl hb
                | exact Or.inl hb.1
                | exact Or.inl hb.1.symm
            | ok account =>
              simp [hL, hH, hres, hacc] at hb
              all_goals
                first
                | exact Or.inl hb
                | exact Or.inl hb.1
                | exact Or.inl hb.1.symm
          | Extension =>
            simp only [hL, hH, hres, Bool.false_eq_true, if_false, if_neg, not_false_iff] at hb
            first
            | (obtain ⟨h1, h2⟩ := emitOne_cont_inv hb
               exact Or.inr ⟨_, h1, h2⟩)
            | (obtain ⟨h1, h2⟩ := emitOne_halt_inv hb
               exact Or.inr ⟨_, h1, Or.inr h2⟩)
          | Branch =>
            simp only [hL, hH, hres, Bool.false_eq_true, if_false, if_neg, not_false_iff] at hb
            first
            | (obtain ⟨h1, h2⟩ := emitOne_cont_inv hb
               exact Or.inr ⟨_, h1, h2⟩)
            | (obtain ⟨h1, h2⟩ := emitOne_halt_inv hb
               exact Or.inr ⟨_, h1, Or.inr h2⟩)
          | Removed =>
            simp [hL, hH, hres] at hb
            all_goals
              first
              | exact Or.inl hb
              | exact Or.inl hb.1
              | exact Or.inl hb.1.symm
          | Unknown =>
            simp [hL, hH, hres] at hb
            all_goals
              first
              | exact Or.inl hb
              | exact Or.inl hb.1
              | exact Or.inl hb.1.symm

lemma deletedOrUpdatedStateBody_sink (env : StateCache) (sink : StateSink)
    (pB : List Bytes) :
    (∀ (i : IterStep) (st : AccountMap) ems st',
      deletedOrUpdatedStateBody env sink pB i st = StepOut.cont ems st' →
        ems = [] ∨ ∃ y, ems = [y] ∧ sink y = Except.ok ()) ∧
    (∀ (i : IterStep) (st : AccountMap) ems e',
      deletedOrUpdatedStateBody env sink pB i st = StepOut.halt ems e' →
        ems = [] ∨ ∃ y, ems = [y] ∧ (sink y = Except.ok () ∨ sink y = Except.error e')) := by
  constructor <;> intro i st ems z hb <;>
  · unfold deletedOrUpdatedStateBody at hb
    by_cases hL : i.isLeaf = true
    · simp [hL] at hb
      all_goals
        first
        | exact Or.inl hb
        | exact Or.inl hb.1
        | exact Or.inl hb.1.symm
    · by_cases hH : i.hash = nullHashBytes
      · simp [hL, hH] at hb
        all_goals
          first
          | exact Or.inl hb
          | exact Or.inl hb.1
          | exact Or.inl hb.1.symm
      · by_cases hp : pB.contains i.path = true
        · have hp2 : i.path ∈ pB := by simpa using hp
          cases hres : resolveNode env i.hash with
          | error er =>
            simp [hL, hH, hp, hp2, hres] at hb
            all_goals
              first
              | exact Or.inl hb
              | exact Or.inl hb.1
              | exact Or.inl hb.1.symm
          | ok trip =>
            obtain ⟨nb, elems, ty⟩ := trip
            cases ty <;> [skip; skip; skip; skip; skip] <;>
              first
              | (cases hacc : env.rlpDecodeAccount ((elems[1]?).getD []) with
                 | error er =>
                   simp [hL, hH, hp, hp2, hres, hacc] at hb
                   all_goals
                     first
                     | exact Or.inl hb
                     | exact Or.inl hb.1
                     | exact Or.inl hb.1.symm
                 | ok account =>
                   simp [hL, hH, hp, hp2, hres, hacc] at hb
                   all_goals
                     first
                     | exact Or.inl hb
                     | exact Or.inl hb.1
                     | exact Or.inl hb.1.symm)
              | (simp [hL, hH, hp, hp2, hres] at hb
                 all_goals
                   first
                   | exact Or.inl hb
                   | exact Or.inl hb.1
                   | exact Or.inl hb.1.symm)
        · have hp' : i.path ∉ pB := by simpa using hp
          cases hs : sink (removedStateNode i.path) with
          | error es =>
            simp [hL, hH, hp, hp', hs] at hb
            all_goals
              first
              | exact Or.inr ⟨_, hb.1, Or.inr (hb.2 ▸ hs)⟩
              | exact Or.inr ⟨_, hb.1.symm, Or.inr (hb.2 ▸ hs)⟩
              | exact Or.inr ⟨_, hb.1, Or.inr (hb.2.symm ▸ hs)⟩
              | exact Or.inr ⟨_, hb.1.symm, Or.inr (hb.2.symm ▸ hs)⟩
          | ok u =>
            cases u
            cases hres : resolveNode env i.hash with
            | error er =>
              simp [hL, hH, hp, hp', hs, hres] at hb
              all_goals
                first
                | exact Or.inr ⟨_, hb.1, Or.inl hs⟩
                | exact Or.inr ⟨_, hb.1.symm, Or.inl hs⟩
            | ok trip =>
              obtain ⟨nb, elems, ty⟩ := trip
              cases ty <;> [skip; skip; skip; skip; skip] <;>
                first
                | (cases hacc : env.rlpDecodeAccount ((elems[1]?).getD []) with
                   | error er =>
                     simp [hL, hH, hp, hp', hs, hres, hacc] at hb
                     all_goals
                       first
                       | exact Or.inr ⟨_, hb.1, Or.inl hs⟩
                       | exact Or.inr ⟨_, hb.1.symm, Or.inl hs⟩
                       | exact Or.inr ⟨_, hb.1, hs⟩
                       | exact Or.inr ⟨_, hb.1.symm, hs⟩
                   | ok account =>
                     simp [hL, hH, hp, hp', hs, hres, hacc] at hb
                     all_goals
                       first
                       | exact Or.inr ⟨_, hb.1, Or.inl hs⟩
                       | exact Or.inr ⟨_, hb.1.symm, Or.inl hs⟩
                       | exact Or.inr ⟨_, hb.1, hs⟩
                       | exact Or.inr ⟨_, hb.1.symm, hs⟩)
                | (simp [hL, hH, hp, hp', hs, hres] at hb
                   all_goals
                     first
                     | exact Or.inr ⟨_, hb.1, Or.inl hs⟩
                     | exact Or.inr ⟨_, hb.1.symm, Or.inl hs⟩
                     | exact Or.inr ⟨_, hb.1, hs⟩
                     | exact Or.inr ⟨_, hb.1.symm, hs⟩)

lemma buildAccountUpdatesBody_sink (env : StateCache) (sink : StateSink)
    (wk : List Bytes) (inter : Bool) :
    (∀ (k : Bytes) (st : AccountMap × AccountMap) ems st',
      buildAccountUpdatesBody env sink wk inter k st = StepOut.cont ems st' →
        ems = [] ∨ ∃ y, ems = [y] ∧ sink y = Except.ok ()) ∧
    (∀ (k : Bytes) (st : AccountMap × AccountMap) ems e',
      buildAccountUpdatesBody env sink wk inter k st = StepOut.halt ems e' →
        ems = [] ∨ ∃ y, ems = [y] ∧ (sink y = Except.ok () ∨ sink y = Except.error e')) := by
  constructor <;> intro k st ems z hb <;>
  · unfold buildAccountUpdatesBody at hb
    rcases hd : (amLookupD st.2 k).account with _ | dA
    · rcases hc : (amLookupD st.1 k).account with _ | cA
      · simp only [hd, hc] at hb
        first
        | (obtain ⟨h1, h2⟩ := emitOne_cont_inv hb
           exact Or.inr ⟨_, h1, h2⟩)
        | (obtain ⟨h1, h2⟩ := emitOne_halt_inv hb
           exact Or.inr ⟨_, h1, Or.inr h2⟩)
      · simp only [hd, hc] at hb
        first
        | (obtain ⟨h1, h2⟩ := emitOne_cont_inv hb
           exact Or.inr ⟨_, h1, h2⟩)
        | (obtain ⟨h1, h2⟩ := emitOne_halt_inv hb
           exact Or.inr ⟨_, h1, Or.inr h2⟩)
    · rcases hc : (amLookupD st.1 k).account with _ | cA
      · simp only [hd, hc] at hb
        first
        | (obtain ⟨h1, h2⟩ := emitOne_cont_inv hb
           exact Or.inr ⟨_, h1, h2⟩)
        | (obtain ⟨h1, h2⟩ := emitOne_halt_inv hb
           exact Or.inr ⟨_, h1, Or.inr h2⟩)
      · cases hsr : (buildStorageNodesIncremental env okStorageSink dA.root cA.root
            wk inter).2 with
        | error er =>
          simp [hd, hc, hsr] at hb
          all_goals
            first
            | exact Or.inl hb
            | exact Or.inl hb.1
            | exact Or.inl hb.1.symm
        | ok u =>
          simp only [hd, hc, hsr] at hb
          first
          | (obtain ⟨h1, h2⟩ := emitOne_cont_inv hb
             exact Or.inr ⟨_, h1, h2⟩)
          | (obtain ⟨h1, h2⟩ := emitOne_halt_inv hb
             exact Or.inr ⟨_, h1, Or.inr h2⟩)

lemma buildAccountCreationsBody_sink (env : StateCache) (sink : StateSink)
    (wk : List Bytes) (inter : Bool) :
    (∀ (kv : Bytes × accountWrapper) (codes : List CodeAndCodeHash) ems st',
      buildAccountCreationsBody env sink wk inter kv codes = StepOut.cont ems st' →
        ems = [] ∨ ∃ y, ems = [y] ∧ sink y = Except.ok ()) ∧
    (∀ (kv : Bytes × accountWrapper) (codes : List CodeAndCodeHash) ems e',
      buildAccountCreationsBody env sink wk inter kv codes = StepOut.halt ems e' →
        ems = [] ∨ ∃ y, ems = [y] ∧ (sink y = Except.ok () ∨ sink y = Except.error e')) := by
  constructor <;> intro kv codes ems z hb <;>
  · unfold buildAccountCreationsBody at hb
    rcases ha : kv.2.account with _ | acct
    · simp [ha] at hb
      all_goals
        first
        | exact Or.inl hb
        | exact Or.inl hb.1
        | exact Or.inl hb.1.symm
    · by_cases hch : acct.codeHash ≠ nullCodeHash env
      · cases hsr : (buildStorageNodesEventual env okStorageSink acct.root wk inter).2 with
        | error er =>
          simp [ha, hch, hsr] at hb
          all_goals
            first
            | exact Or.inl hb
            | exact Or.inl hb.1
            | exact Or.inl hb.1.symm
        | ok u =>
          cases hcc : env.contractCode (bytesToHash acct.codeHash) with
          | error er =>
            simp [ha, hch, hsr, hcc] at hb
            all_goals
              first
              | exact Or.inl hb
              | exact Or.inl hb.1
              | exact Or.inl hb.1.symm
          | ok code =>
            simp only [ha, hch, hsr, hcc, if_pos, ite_not] at hb
            first
            | (obtain ⟨h1, h2⟩ := emitOne_cont_inv hb
               exact Or.inr ⟨_, h1, h2⟩)
            | (obtain ⟨h1, h2⟩ := emitOne_halt_inv hb
               exact Or.inr ⟨_, h1, Or.inr h2⟩)
      · simp only [ha, hch, ite_not, if_neg, not_not] at hb
        first
        | (obtain ⟨h1, h2⟩ := emitOne_cont_inv hb
           exact Or.inr ⟨_, h1, h2⟩)
        | (obtain ⟨h1, h2⟩ := emitOne_halt_inv hb
           exact Or.inr ⟨_, h1, Or.inr h2⟩)

lemma bsdWithout_reject (env : StateCache) (sink : StateSink) (args : StateRoots)
    (params : Params) (n : StateNode) (e : String)
    (res : List StateNode × Except String (List CodeAndCodeHash))
    (hres : buildStateDiffWithoutIntermediateStateNodes env sink args params = res)
    (hn : n ∈ res.1) (he : sink n = Except.error e) :
    (∃ pre, res.1 = pre ++ [n] ∧ ∀ x ∈ pre, sink x = Except.ok ()) ∧
    ∃ ctx ∈ wrapCtxs, res.2 = Except.error (ctx ++ e) := by
  unfold buildStateDiffWithoutIntermediateStateNodes at hres
  cases ho : env.openTrie args.oldStateRoot with
  | error er =>
    simp only [ho] at hres
    subst hres
    simp at hn
  | ok oldSteps =>
  simp only [ho] at hres
  cases hnw : env.openTrie args.newStateRoot with
  | error er =>
    simp only [hnw] at hres
    subst hres
    simp at hn
  | ok newSteps =>
  simp only [hnw] at hres
  cases h1 : createdAndUpdatedState env oldSteps newSteps params.watchedAddresses with
  | error er =>
    simp only [h1] at hres
    subst hres
    simp at hn
  | ok pr =>
  obtain ⟨accsB, pathsB⟩ := pr
  simp only [h1] at hres
  have h2main : ∀ (m : StateNode) (e2 : String),
      m ∈ (deletedOrUpdatedState env sink oldSteps newSteps pathsB).1 →
      sink m = Except.error e2 →
      (∃ pre, (deletedOrUpdatedState env sink oldSteps newSteps pathsB).1 = pre ++ [m] ∧
        ∀ x ∈ pre, sink x = Except.ok ()) ∧
      (deletedOrUpdatedState env sink oldSteps newSteps pathsB).2 = Except.error e2 :=
    fun m e2 => runLoop_reject_last _ sink
      (deletedOrUpdatedStateBody_sink env sink pathsB).1
      (deletedOrUpdatedStateBody_sink env sink pathsB).2
      (diffIter newSteps oldSteps) [] m e2
  cases h2r : (deletedOrUpdatedState env sink oldSteps newSteps pathsB).2 with
  | error er =>
    simp only [h2r] at hres
    subst hres
    obtain ⟨hpre, h2e⟩ := h2main n e hn he
    injection h2r.symm.trans h2e with h'
    subst h'
    exact ⟨hpre, ⟨"error collecting deletedOrUpdatedNodes: ", by simp [wrapCtxs], rfl⟩⟩
  | ok accsA =>
  simp only [h2r] at hres
  have hacc2 : ∀ x ∈ (deletedOrUpdatedState env sink oldSteps newSteps pathsB).1,
      sink x = Except.ok () := by
    intro x hx
    cases hsx : sink x with
    | ok u =>
      cases u
      exact rfl
    | error e2 =>
      have h2e := (h2main x e2 hx hsx).2
      rw [h2r] at h2e
      exact Except.noConfusion h2e
  have h3main : ∀ (m : StateNode) (e2 : String),
      m ∈ (buildAccountUpdates env sink params.watchedStorageSlots
        params.intermediateStorageNodes
        (findIntersection (sortKeys accsB) (sortKeys accsA)) accsB accsA).1 →
      sink m = Except.error e2 →
      (∃ pre, (buildAccountUpdates env sink params.watchedStorageSlots
          params.intermediateStorageNodes
          (findIntersection (sortKeys accsB) (sortKeys accsA)) accsB accsA).1 =
            pre ++ [m] ∧
        ∀ x ∈ pre, sink x = Except.ok ()) ∧
      (buildAccountUpdates env sink params.watchedStorageSlots
        params.intermediateStorageNodes
        (findIntersection (sortKeys accsB) (sortKeys accsA)) accsB accsA).2 =
          Except.error e2 :=
    fun m e2 => runLoop_reject_last _ sink
      (buildAccountUpdatesBody_sink env sink params.watchedStorageSlots
        params.intermediateStorageNodes).1
      (buildAccountUpdatesBody_sink env sink params.watchedStorageSlots
        params.intermediateStorageNodes).2
      (findIntersection (sortKeys accsB) (sortKeys accsA)) (accsB, accsA) m e2
  cases h3r : (buildAccountUpdates env sink params.watchedStorageSlots
      params.intermediateStorageNodes
      (findIntersection (sortKeys accsB) (sortKeys accsA)) accsB accsA).2 with
  | error er =>
    simp only [h3r] at hres
    subst hres
    rcases List.mem_append.mp hn with hm | hm
    · exact absurd ((hacc2 n hm).symm.trans he) (fun hc => Except.noConfusion hc)
    · obtain ⟨⟨pre, hpre, hok⟩, h3e⟩ := h3main n e hm he
      injection h3r.symm.trans h3e with h'
      subst h'
      refine ⟨⟨(deletedOrUpdatedState env sink oldSteps newSteps pathsB).1 ++ pre, ?_, ?_⟩,
        ⟨"error building diff for updated accounts: ", by simp [wrapCtxs], rfl⟩⟩
      · show (deletedOrUpdatedState env sink oldSteps newSteps pathsB).1 ++
          (buildAccountUpdates env sink params.watchedStorageSlots
            params.intermediateStorageNodes
            (findIntersection (sortKeys accsB) (sortKeys accsA)) accsB accsA).1 = _
        rw [hpre]
        exact (List.append_assoc _ _ _).symm
      · intro x hx
        rcases List.mem_append.mp hx with hx1 | hx2
        · exact hacc2 x hx1
        · exact hok x hx2
  | ok pr3 =>
  obtain ⟨creationsLeft, delsLeft⟩ := pr3
  simp only [h3r] at hres
  have hacc3 : ∀ x ∈ (buildAccountUpdates env sink params.watchedStorageSlots
      params.intermediateStorageNodes
      (findIntersection (sortKeys accsB) (sortKeys accsA)) accsB accsA).1,
      sink x = Except.ok () := by
    intro x hx
    cases hsx : sink x with
    | ok u =>
      cases u
      exact rfl
    | error e2 =>
      have h3e := (h3main x e2 hx hsx).2
      rw [h3r] at h3e
      exact Except.noConfusion h3e
  have h4main : ∀ (m : StateNode) (e2 : String),
      m ∈ (buildAccountCreations env sink creationsLeft
        params.watchedStorageSlots params.intermediateStorageNodes).1 →
      sink m = Except.error e2 →
      (∃ pre, (buildAccountCreations env sink creationsLeft
          params.watchedStorageSlots params.intermediateStorageNodes).1 = pre ++ [m] ∧
        ∀ x ∈ pre, sink x = Except.ok ()) ∧
      (buildAccountCreations env sink creationsLeft
        params.watchedStorageSlots params.intermediateStorageNodes).2 =
          Except.error e2 :=
    fun m e2 => runLoop_reject_last _ sink
      (buildAccountCreationsBody_sink env sink params.watchedStorageSlots
        params.intermediateStorageNodes).1
      (buildAccountCreationsBody_sink env sink params.watchedStorageSlots
        params.intermediateStorageNodes).2
      (env.mapRange creationsLeft) [] m e2
  cases h4r : (buildAccountCreations env sink creationsLeft
      params.watchedStorageSlots params.intermediateStorageNodes).2 with
  | error er =>
    simp only [h4r] at hres
    subst hres
    rcases List.mem_append.mp hn with hm | hm
    · rcases List.mem_append.mp hm with hm1 | hm2
      · exact absurd ((hacc2 n hm1).symm.trans he) (fun hc => Except.noConfusion hc)
      · exact absurd ((hacc3 n hm2).symm.trans he) (fun hc => Except.noConfusion hc)
    · obtain ⟨⟨pre, hpre, hok⟩, h4e⟩ := h4main n e hm he
      injection h4r.symm.trans h4e with h'
      subst h'
      refine ⟨⟨((deletedOrUpdatedState env sink oldSteps newSteps pathsB).1 ++
          (buildAccountUpdates env sink params.watchedStorageSlots
            params.intermediateStorageNodes
            (findIntersection (sortKeys accsB) (sortKeys accsA)) accsB accsA).1) ++ pre,
          ?_, ?_⟩,
        ⟨"error building diff for created accounts: ", by simp [wrapCtxs], rfl⟩⟩
      · show ((deletedOrUpdatedState env sink oldSteps newSteps pathsB).1 ++
          (buildAccountUpdates env sink params.watchedStorageSlots
            params.intermediateStorageNodes
            (findIntersection (sortKeys accsB) (sortKeys accsA)) accsB accsA).1) ++
          (buildAccountCreations env sink creationsLeft
            params.watchedStorageSlots params.intermediateStorageNodes).1 = _
        rw [hpre]
        exact (List.append_assoc _ _ _).symm
      · intro x hx
        rcases List.mem_append.mp hx with hx1 | hx2
        · rcases List.mem_append.mp hx1 with hy1 | hy2
          · exact hacc2 x hy1
          · exact hacc3 x hy2
        · exact hok x hx2
  | ok codes =>
    simp only [h4r] at hres
    subst hres
    have hacc4 : ∀ x ∈ (buildAccountCreations env sink creationsLeft
        params.watchedStorageSlots params.intermediateStorageNodes).1,
        sink x = Except.ok () := by
      intro x hx
      cases hsx : sink x with
      | ok u =>
        cases u
        exact rfl
      | error e2 =>
        have h4e := (h4main x e2 hx hsx).2
        rw [h4r] at h4e
        exact Except.noConfusion h4e
    rcases List.mem_append.mp hn with hm | hm
    · rcases List.mem_append.mp hm with hm1 | hm2
      · exact absurd ((hacc2 n hm1).symm.trans he) (fun hc => Except.noConfusion hc)
      · exact absurd ((hacc3 n hm2).symm.trans he) (fun hc => Except.noConfusion hc)
    · exact absurd ((hacc4 n hm).symm.trans he) (fun hc => Except.noConfusion hc)

lemma bsdWith_reject (env : StateCache) (sink : StateSink) (args : StateRoots)
    (params : Params) (n : StateNode) (e : String)
    (res : List StateNode × Except String (List CodeAndCodeHash))
    (hres : buildStateDiffWithIntermediateStateNodes env sink args params = res)
    (hn : n ∈ res.1) (he : sink n = Except.error e) :
    (∃ pre, res.1 = pre ++ [n] ∧ ∀ x ∈ pre, sink x = Except.ok ()) ∧
    ∃ ctx ∈ wrapCtxs, res.2 = Except.error (ctx ++ e) := by
  unfold buildStateDiffWithIntermediateStateNodes at hres
  cases ho : env.openTrie args.oldStateRoot with
  | error er =>
    simp only [ho] at hres
    subst hres
    simp at hn
  | ok oldSteps =>
  simp only [ho] at hres
  cases hnw : env.openTrie args.newStateRoot with
  | error er =>
    simp only [hnw] at hres
    subst hres
    simp at hn
  | ok newSteps =>
  simp only [hnw] at hres
  have h1main : ∀ (m : StateNode) (e2 : String),
      m ∈ (createdAndUpdatedStateWithIntermediateNodes env sink oldSteps newSteps).1 →
      sink m = Except.error e2 →
      (∃ pre, (createdAndUpdatedStateWithIntermediateNodes env sink oldSteps
          newSteps).1 = pre ++ [m] ∧
        ∀ x ∈ pre, sink x = Except.ok ()) ∧
      (createdAndUpdatedStateWithIntermediateNodes env sink oldSteps newSteps).2 =
        Except.error e2 :=
    fun m e2 => runLoop_reject_last _ sink
      (createdAndUpdatedStateIntermediateBody_sink env sink).1
      (createdAndUpdatedStateIntermediateBody_sink env sink).2
      (diffIter oldSteps newSteps) ([], []) m e2
  cases h1r : (createdAndUpdatedStateWithIntermediateNodes env sink oldSteps
      newSteps).2 with
  | error er =>
    simp only [h1r] at hres
    subst hres
    obtain ⟨hpre, h1e⟩ := h1main n e hn he
    injection h1r.symm.trans h1e with h'
    subst h'
    exact ⟨hpre, ⟨"error collecting createdAndUpdatedNodes: ", by simp [wrapCtxs], rfl⟩⟩
  | ok pr =>
  obtain ⟨accsB, pathsB⟩ := pr
  simp only [h1r] at hres
  have hacc1 : ∀ x ∈ (createdAndUpdatedStateWithIntermediateNodes env sink oldSteps
      newSteps).1, sink x = Except.ok () := by
    intro x hx
    cases hsx : sink x with
    | ok u =>
      cases u
      exact rfl
    | error e2 =>
      have h1e := (h1main x e2 hx hsx).2
      rw [h1r] at h1e
      exact Except.noConfusion h1e
  have h2main : ∀ (m : StateNode) (e2 : String),
      m ∈ (deletedOrUpdatedState env sink oldSteps newSteps pathsB).1 →
      sink m = Except.error e2 →
      (∃ pre, (deletedOrUpdatedState env sink oldSteps newSteps pathsB).1 = pre ++ [m] ∧
        ∀ x ∈ pre, sink x = Except.ok ()) ∧
      (deletedOrUpdatedState env sink oldSteps newSteps pathsB).2 = Except.error e2 :=
    fun m e2 => runLoop_reject_last _ sink
      (deletedOrUpdatedStateBody_sink env sink pathsB).1
      (deletedOrUpdatedStateBody_sink env sink pathsB).2
      (diffIter newSteps oldSteps) [] m e2
  cases h2r : (deletedOrUpdatedState env sink oldSteps newSteps pathsB).2 with
  | error er =>
    simp only [h2r] at hres
    subst hres
    rcases List.mem_append.mp hn with hm | hm
    · exact absurd ((hacc1 n hm).symm.trans he) (fun hc => Except.noConfusion hc)
    · obtain ⟨⟨pre, hpre, hok⟩, h2e⟩ := h2main n e hm he
      injection h2r.symm.trans h2e with h'
      subst h'
      refine ⟨⟨(createdAndUpdatedStateWithIntermediateNodes env sink oldSteps
          newSteps).1 ++ pre, ?_, ?_⟩,
        ⟨"error collecting deletedOrUpdatedNodes: ", by simp [wrapCtxs], rfl⟩⟩
      · show (createdAndUpdatedStateWithIntermediateNodes env sink oldSteps newSteps).1 ++
          (deletedOrUpdatedState env sink oldSteps newSteps pathsB).1 = _
        rw [hpre]
        exact (List.append_assoc _ _ _).symm
      · intro x hx
        rcases List.mem_append.mp hx with hx1 | hx2
        · exact hacc1 x hx1
        · exact hok x hx2
  | ok accsA =>
  simp only [h2r] at hres
  have hacc2 : ∀ x ∈ (deletedOrUpdatedState env sink oldSteps newSteps pathsB).1,
      sink x = Except.ok () := by
    intro x hx
    cases hsx : sink x with
    | ok u =>
      cases u
      exact rfl
    | error e2 =>
      have h2e := (h2main x e2 hx hsx).2
      rw [h2r] at h2e
      exact Except.noConfusion h2e
  have h3main : ∀ (m : StateNode) (e2 : String),
      m ∈ (buildAccountUpdates env sink params.watchedStorageSlots
        params.intermediateStorageNodes
        (findIntersection (sortKeys accsB) (sortKeys accsA)) accsB accsA).1 →
      sink m = Except.error e2 →
      (∃ pre, (buildAccountUpdates env sink params.watchedStorageSlots
          params.intermediateStorageNodes
          (findIntersection (sortKeys accsB) (sortKeys accsA)) accsB accsA).1 =
            pre ++ [m] ∧
        ∀ x ∈ pre, sink x = Except.ok ()) ∧
      (buildAccountUpdates env sink params.watchedStorageSlots
        params.intermediateStorageNodes
        (findIntersection (sortKeys accsB) (sortKeys accsA)) accsB accsA).2 =
          Except.error e2 :=
    fun m e2 => runLoop_reject_last _ sink
      (buildAccountUpdatesBody_sink env sink params.watchedStorageSlots
        params.intermediateStorageNodes).1
      (buildAccountUpdatesBody_sink env sink params.watchedStorageSlots
        params.intermediateStorageNodes).2
      (findIntersection (sortKeys accsB) (sortKeys accsA)) (accsB, accsA) m e2
  cases h3r : (buildAccountUpdates env sink params.watchedStorageSlots
      params.intermediateStorageNodes
      (findIntersection (sortKeys accsB) (sortKeys accsA)) accsB accsA).2 with
  | error er =>
    simp only [h3r] at hres
    subst hres
    rcases List.mem_append.mp hn with hm | hm
    · rcases List.mem_append.mp hm with hm1 | hm2
      · exact absurd ((hacc1 n hm1).symm.trans he) (fun hc => Except.noConfusion hc)
      · exact absurd ((hacc2 n hm2).symm.trans he) (fun hc => Except.noConfusion hc)
    · obtain ⟨⟨pre, hpre, hok⟩, h3e⟩ := h3main n e hm he
      injection h3r.symm.trans h3e with h'
      subst h'
      refine ⟨⟨((createdAndUpdatedStateWithIntermediateNodes env sink oldSteps
          newSteps).1 ++
          (deletedOrUpdatedState env sink oldSteps newSteps pathsB).1) ++ pre, ?_, ?_⟩,
        ⟨"error building diff for updated accounts: ", by simp [wrapCtxs], rfl⟩⟩
      · show ((createdAndUpdatedStateWithIntermediateNodes env sink oldSteps
          newSteps).1 ++
          (deletedOrUpdatedState env sink oldSteps newSteps pathsB).1) ++
          (buildAccountUpdates env sink params.watchedStorageSlots
            params.intermediateStorageNodes
            (findIntersection (sortKeys accsB) (sortKeys accsA)) accsB accsA).1 = _
        rw [hpre]
        exact (List.append_assoc _ _ _).symm
      · intro x hx
        rcases List.mem_append.mp hx with hx1 | hx2
        · rcases List.mem_append.mp hx1 with hy1 | hy2
          · exact hacc1 x hy1
          · exact hacc2 x hy2
        · exact hok x hx2
  | ok pr3 =>
  obtain ⟨creationsLeft, delsLeft⟩ := pr3
  simp only [h3r] at hres
  have hacc3 : ∀ x ∈ (buildAccountUpdates env sink params.watchedStorageSlots
      params.intermediateStorageNodes
      (findIntersection (sortKeys accsB) (sortKeys accsA)) accsB accsA).1,
      sink x = Except.ok () := by
    intro x hx
    cases hsx : sink x with
    | ok u =>
      cases u
      exact rfl
    | error e2 =>
      have h3e := (h3main x e2 hx hsx).2
      rw [h3r] at h3e
      exact Except.noConfusion h3e
  have h4main : ∀ (m : StateNode) (e2 : String),
      m ∈ (buildAccountCreations env sink creationsLeft
        params.watchedStorageSlots params.intermediateStorageNodes).1 →
      sink m = Except.error e2 →
      (∃ pre, (buildAccountCreations env sink creationsLeft
          params.watchedStorageSlots params.intermediateStorageNodes).1 = pre ++ [m] ∧
        ∀ x ∈ pre, sink x = Except.ok ()) ∧
      (buildAccountCreations env sink creationsLeft
        params.watchedStorageSlots params.intermediateStorageNodes).2 =
          Except.error e2 :=
    fun m e2 => runLoop_reject_last _ sink
      (buildAccountCreationsBody_sink env sink params.watchedStorageSlots
        params.intermediateStorageNodes).1
      (buildAccountCreationsBody_sink env sink params.watchedStorageSlots
        params.intermediateStorageNodes).2
      (env.mapRange creationsLeft) [] m e2
  cases h4r : (buildAccountCreations env sink creationsLeft
      params.watchedStorageSlots params.intermediateStorageNodes).2 with
  | error er =>
    simp only [h4r] at hres
    subst hres
    rcases List.mem_append.mp hn with hm | hm
    · rcases List.mem_append.mp hm with hm1 | hm2
      · rcases List.mem_append.mp hm1 with hz1 | hz2
        · exact absurd ((hacc1 n hz1).symm.trans he) (fun hc => Except.noConfusion hc)
        · exact absurd ((hacc2 n hz2).symm.trans he) (fun hc => Except.noConfusion hc)
      · exact absurd ((hacc3 n hm2).symm.trans he) (fun hc => Except.noConfusion hc)
    · obtain ⟨⟨pre, hpre, hok⟩, h4e⟩ := h4main n e hm he
      injection h4r.symm.trans h4e with h'
      subst h'
      refine ⟨⟨(((createdAndUpdatedStateWithIntermediateNodes env sink oldSteps
          newSteps).1 ++
          (deletedOrUpdatedState env sink oldSteps newSteps pathsB).1) ++
          (buildAccountUpdates env sink params.watchedStorageSlots
            params.intermediateStorageNodes
            (findIntersection (sortKeys accsB) (sortKeys accsA)) accsB accsA).1) ++
          pre, ?_, ?_⟩,
        ⟨"error building diff for created accounts: ", by simp [wrapCtxs], rfl⟩⟩
      · show (((createdAndUpdatedStateWithIntermediateNodes env sink oldSteps
          newSteps).1 ++
          (deletedOrUpdatedState env sink oldSteps newSteps pathsB).1) ++
          (buildAccountUpdates env sink params.watchedStorageSlots
            params.intermediateStorageNodes
            (findIntersection (sortKeys accsB) (sortKeys accsA)) accsB accsA).1) ++
          (buildAccountCreations env sink creationsLeft
            params.watchedStorageSlots params.intermediateStorageNodes).1 = _
        rw [hpre]
        exact (List.append_assoc _ _ _).symm
      · intro x hx
        rcases List.mem_append.mp hx with hx1 | hx2
        · rcases List.mem_append.mp hx1 with hy1 | hy2
          · rcases List.mem_append.mp hy1 with hz1 | hz2
            · exact hacc1 x hz1
            · exact hacc2 x hz2
          · exact hacc3 x hy2
        · exact hok x hx2
  | ok codes =>
    simp only [h4r] at hres
    subst hres
    have hacc4 : ∀ x ∈ (buildAccountCreations env sink creationsLeft
        params.watchedStorageSlots params.intermediateStorageNodes).1,
        sink x = Except.ok () := by
      intro x hx
      cases hsx : sink x with
      | ok u =>
        cases u
        exact rfl
      | error e2 =>
        have h4e := (h4main x e2 hx hsx).2
        rw [h4r] at h4e
        exact Except.noConfusion h4e
    rcases List.mem_append.mp hn with hm | hm
    · rcases List.mem_append.mp hm with hm1 | hm2
      · rcases List.mem_append.mp hm1 with hz1 | hz2
        · exact absurd ((hacc1 n hz1).symm.trans he) (fun hc => Except.noConfusion hc)
        · exact absurd ((hacc2 n hz2).symm.trans he) (fun hc => Except.noConfusion hc)
      · exact absurd ((hacc3 n hm2).symm.trans he) (fun hc => Except.noConfusion hc)
    · exact absurd ((hacc4 n hm).symm.trans he) (fun hc => Except.noConfusion hc)

/-- C7 (amended): for an arbitrary sink, if the sink returned an error on a
record it was handed during the invocation, the invocation aborted there:
the rejected record is the last record of the emission log (every record
before it was accepted by the sink, and no record follows it), and
WriteStateDiffObject returns the sink's error wrapped in the context prefix
of the pass in which the sink failed. -/
theorem WriteStateDiffObject_sink_error_aborts (env : StateCache) (sink : StateSink)
    (args : StateRoots) (params : Params) (n : StateNode) (e : String)
    (hn : n ∈ (WriteStateDiffObject env sink args params).1)
    (he : sink n = Except.error e) :
    (∃ pre, (WriteStateDiffObject env sink args params).1 = pre ++ [n] ∧
      ∀ x ∈ pre, sink x = Except.ok ()) ∧
    ∃ ctx ∈ wrapCtxs,
      (WriteStateDiffObject env sink args params).2 = Except.error (ctx ++ e) := by
  unfold WriteStateDiffObject at hn ⊢
  by_cases hbr : (!params.intermediateStateNodes ||
      decide (params.watchedAddresses.length > 0)) = true
  · rw [if_pos hbr] at hn ⊢
    exact bsdWithout_reject env sink args params n e _ rfl hn he
  · rw [if_neg hbr] at hn ⊢
    exact bsdWith_reject env sink args params n e _ rfl hn he

/-- C7 witness: a concrete run in which the sink accepts the first Removed
record and rejects the second, mid-stream; the rejected record closes the
emission log and the result is the wrapped sink error. -/
theorem WriteStateDiffObject_sink_error_aborts_witness :
    removedStateNode [1, 7] ∈ (WriteStateDiffObject envW7 sinkW7
        { oldStateRoot := [1], newStateRoot := [2] } {}).1 ∧
    sinkW7 (removedStateNode [1, 7]) = Except.error ("boom") ∧
    ((∃ pre, (WriteStateDiffObject envW7 sinkW7
          { oldStateRoot := [1], newStateRoot := [2] } {}).1 =
            pre ++ [removedStateNode [1, 7]] ∧
        ∀ x ∈ pre, sinkW7 x = Except.ok ()) ∧
      ∃ ctx ∈ wrapCtxs,
        (WriteStateDiffObject envW7 sinkW7
            { oldStateRoot := [1], newStateRoot := [2] } {}).2 =
          Except.error (ctx ++ "boom")) :=
  ⟨by decide, rfl,
    WriteStateDiffObject_sink_error_aborts envW7 sinkW7
      { oldStateRoot := [1], newStateRoot := [2] } {} (removedStateNode [1, 7]) ("boom")
      (by decide) rfl⟩
